import Mathlib

/-!
# Verification of the supply-chain chaincode engine

A shallow embedding of `chaincode/src/contracts/supply-chain-contract.ts`.

Modelling conventions:
* The ledger is an association list from string keys to stored values,
  kept in ascending key order by `ledgerPut` (Fabric range scans return
  keys in lexicographic order).
* Stored bytes are modelled at the JSON-tree level: a stored value is
  either a parsed JSON document (`StoredVal.json`) or an unparseable
  blob (`StoredVal.malformed`); `JSON.parse` succeeds exactly on the
  former.  JSON numbers are modelled as exact rationals.
* JavaScript dynamic field access is modelled explicitly: reading a
  property of `undefined`/`null` raises a `TypeError`, reading a missing
  property yields `undefined` (`Option.none`).
* `Date.now()`, `Math.random()` and ledger write failures are inputs of
  the evaluation environment `Env`; the engine code reads them exactly
  where the source does.
* `new Date(s)` is modelled by `parseISO` for the ISO-8601 forms the
  repository uses (date, date-time, optional milliseconds, `Z` or
  `±hh:mm` offset; a missing offset is treated as UTC).
  `Date.prototype.toISOString` is `isoRender`.
-/

namespace SupplyChain

/-! ## Calendar arithmetic (proleptic Gregorian, epoch 1970-01-01) -/

def isLeapYear (y : Int) : Bool :=
  y % 4 == 0 && (y % 100 != 0 || y % 400 == 0)

def daysInMonth (y : Int) (m : Nat) : Nat :=
  if m == 2 then (if isLeapYear y then 29 else 28)
  else if m == 4 || m == 6 || m == 9 || m == 11 then 30
  else 31

/-- Days since 1970-01-01 of the civil date `y-m-d` (Howard Hinnant's
`days_from_civil`). -/
def daysFromCivil (y : Int) (m d : Nat) : Int :=
  let y' : Int := if m ≤ 2 then y - 1 else y
  let era : Int := Int.fdiv y' 400
  let yoe : Int := y' - era * 400
  let mp : Int := if m > 2 then (m : Int) - 3 else (m : Int) + 9
  let doy : Int := Int.fdiv (153 * mp + 2) 5 + (d : Int) - 1
  let doe : Int := yoe * 365 + Int.fdiv yoe 4 - Int.fdiv yoe 100 + doy
  era * 146097 + doe - 719468

/-- Civil date `(y, m, d)` of a count of days since 1970-01-01
(Howard Hinnant's `civil_from_days`). -/
def civilFromDays (z : Int) : Int × Nat × Nat :=
  let z' : Int := z + 719468
  let era : Int := Int.fdiv z' 146097
  let doe : Nat := (z' - era * 146097).toNat
  let yoe : Nat := (doe - doe / 1460 + doe / 36524 - doe / 146096) / 365
  let y : Int := (yoe : Int) + era * 400
  let doy : Nat := doe - (365 * yoe + yoe / 4 - yoe / 100)
  let mp : Nat := (5 * doy + 2) / 153
  let d : Nat := doy - (153 * mp + 2) / 5 + 1
  let m : Nat := if mp < 10 then mp + 3 else mp - 9
  (if m ≤ 2 then y + 1 else y, m, d)

def pad2 (n : Nat) : String :=
  if n < 10 then "0" ++ toString n else toString n

def pad3 (n : Nat) : String :=
  if n < 10 then "00" ++ toString n
  else if n < 100 then "0" ++ toString n
  else toString n

def pad4 (n : Nat) : String :=
  if n < 10 then "000" ++ toString n
  else if n < 100 then "00" ++ toString n
  else if n < 1000 then "0" ++ toString n
  else toString n

/-- `Date.prototype.toISOString` for times within years 0–9999. -/
def isoRender (t : Int) : String :=
  let days : Int := Int.fdiv t 86400000
  let msOfDay : Nat := (t - days * 86400000).toNat
  let c := civilFromDays days
  let hh := msOfDay / 3600000
  let mi := msOfDay % 3600000 / 60000
  let ss := msOfDay % 60000 / 1000
  let ms := msOfDay % 1000
  pad4 c.1.toNat ++ "-" ++ pad2 c.2.1 ++ "-" ++ pad2 c.2.2 ++ "T" ++
    pad2 hh ++ ":" ++ pad2 mi ++ ":" ++ pad2 ss ++ "." ++ pad3 ms ++ "Z"

/-- `new Date(t).toISOString().substring(0, 7)` — the `YYYY-MM` month key. -/
def monthKeyOfMillis (t : Int) : String :=
  let days : Int := Int.fdiv t 86400000
  let c := civilFromDays days
  pad4 c.1.toNat ++ "-" ++ pad2 c.2.1

/-- `toLocaleDateString('en-US', \x7bmonth: 'short'\x7d)` rendered in UTC
(the source implicitly depends on the host timezone here; the model fixes
UTC). -/
def monthShortOfMillis (t : Int) : String :=
  let days : Int := Int.fdiv t 86400000
  let c := civilFromDays days
  match c.2.1 with
  | 1 => "Jan" | 2 => "Feb" | 3 => "Mar" | 4 => "Apr"
  | 5 => "May" | 6 => "Jun" | 7 => "Jul" | 8 => "Aug"
  | 9 => "Sep" | 10 => "Oct" | 11 => "Nov" | _ => "Dec"

/-! ## ISO-8601 parsing (`new Date(string)` / `Date.parse`) -/

/-- Read exactly `n` leading decimal digits, returning their value and
the rest of the characters. -/
def readDigits : Nat → List Char → Option (Nat × List Char)
  | 0, cs => some (0, cs)
  | n + 1, c :: cs =>
    if c.isDigit then
      match readDigits n cs with
      | some (v, rest) => some ((c.toNat - 48) * 10 ^ n + v, rest)
      | none => none
    else none
  | _ + 1, [] => none

/-- Read 1–3 fractional-second digits, scaled to milliseconds. -/
def readFraction : List Char → Option (Nat × List Char)
  | c₁ :: c₂ :: c₃ :: cs =>
    if c₁.isDigit && c₂.isDigit && c₃.isDigit then
      some ((c₁.toNat - 48) * 100 + (c₂.toNat - 48) * 10 + (c₃.toNat - 48), cs)
    else if c₁.isDigit && c₂.isDigit then
      some ((c₁.toNat - 48) * 100 + (c₂.toNat - 48) * 10, c₃ :: cs)
    else if c₁.isDigit then
      some ((c₁.toNat - 48) * 100, c₂ :: c₃ :: cs)
    else none
  | c₁ :: c₂ :: cs =>
    if c₁.isDigit && c₂.isDigit then
      some ((c₁.toNat - 48) * 100 + (c₂.toNat - 48) * 10, cs)
    else if c₁.isDigit then
      some ((c₁.toNat - 48) * 100, c₂ :: cs)
    else none
  | c₁ :: cs =>
    if c₁.isDigit then some ((c₁.toNat - 48) * 100, cs) else none
  | [] => none

/-- Timezone suffix: `""` (treated as UTC here), `Z`, or `±hh:mm`;
yields the offset in minutes. -/
def readOffset : List Char → Option Int
  | [] => some 0
  | ['Z'] => some 0
  | c :: cs =>
    if c = '+' || c = '-' then
      match readDigits 2 cs with
      | some (h, ':' :: cs₂) =>
        match readDigits 2 cs₂ with
        | some (mi, []) =>
          if h ≤ 23 && mi ≤ 59 then
            some (if c = '+' then ((h * 60 + mi : Nat) : Int)
                  else -((h * 60 + mi : Nat) : Int))
          else none
        | _ => none
      | _ => none
    else none

/-- Time-of-day and offset: `hh:mm(:ss(.fff)?)?` plus timezone suffix,
yielding milliseconds since midnight minus the offset. -/
def readTime (cs : List Char) : Option Int :=
  match readDigits 2 cs with
  | some (h, ':' :: cs₁) =>
    (match readDigits 2 cs₁ with
     | some (mi, cs₂) =>
       (match cs₂ with
        | ':' :: cs₃ =>
          (match readDigits 2 cs₃ with
           | some (s, cs₄) =>
             (match cs₄ with
              | '.' :: cs₅ =>
                (match readFraction cs₅ with
                 | some (ms, cs₆) =>
                   (match readOffset cs₆ with
                    | some off =>
                      if h ≤ 23 && mi ≤ 59 && s ≤ 59 then
                        some (((h * 3600000 + mi * 60000 + s * 1000 + ms : Nat) : Int)
                          - off * 60000)
                      else none
                    | none => none)
                 | none => none)
              | _ =>
                (match readOffset cs₄ with
                 | some off =>
                   if h ≤ 23 && mi ≤ 59 && s ≤ 59 then
                     some (((h * 3600000 + mi * 60000 + s * 1000 : Nat) : Int)
                       - off * 60000)
                   else none
                 | none => none))
           | none => none)
        | _ =>
          (match readOffset cs₂ with
           | some off =>
             if h ≤ 23 && mi ≤ 59 then
               some (((h * 3600000 + mi * 60000 : Nat) : Int) - off * 60000)
             else none
           | none => none))
     | none => none)
  | _ => none

/-- `Date.parse` for the ISO-8601 forms used by the repository:
`YYYY-MM`, `YYYY-MM-DD`, and `YYYY-MM-DDThh:mm(:ss(.fff)?)?` with an
optional `Z`/`±hh:mm` suffix.  Returns epoch milliseconds, or `none`
for an invalid date (JS `NaN`). -/
def parseISO (s : String) : Option Int :=
  match readDigits 4 s.data with
  | some (y, '-' :: cs₁) =>
    (match readDigits 2 cs₁ with
     | some (m, cs₂) =>
       if 1 ≤ m && m ≤ 12 then
         match cs₂ with
         | [] => some (daysFromCivil (y : Int) m 1 * 86400000)
         | '-' :: cs₃ =>
           (match readDigits 2 cs₃ with
            | some (d, cs₄) =>
              if 1 ≤ d && d ≤ daysInMonth (y : Int) m then
                match cs₄ with
                | [] => some (daysFromCivil (y : Int) m d * 86400000)
                | 'T' :: cs₅ =>
                  (match readTime cs₅ with
                   | some ms => some (daysFromCivil (y : Int) m d * 86400000 + ms)
                   | none => none)
                | _ => none
              else none
            | none => none)
         | _ => none
       else none
     | none => none)
  | _ => none

/-- `isValidDate` from the contract: the string parses as a date and
contains a literal `T`. -/
def isValidDate (dateString : String) : Bool :=
  (parseISO dateString).isSome && dateString.data.contains 'T'

/-- Lexicographic comparison of character lists by code point, the
order JavaScript string comparison and the Fabric state store use
(identical to UTF-16 code-unit order on the basic multilingual plane,
which covers every key the contract builds). -/
def listLtB : List Char → List Char → Bool
  | [], [] => false
  | [], _ :: _ => true
  | _ :: _, [] => false
  | c :: cs, d :: ds =>
    if c.toNat < d.toNat then true
    else if d.toNat < c.toNat then false
    else listLtB cs ds

def strLtB (a b : String) : Bool := listLtB a.data b.data

def strLeB (a b : String) : Bool := !(strLtB b a)

/-- `value.trim() === ''` — every character is whitespace. -/
def jsBlank (s : String) : Bool := s.data.all Char.isWhitespace

/-! ## JSON values and the ledger -/

/-- Parsed JSON documents; numbers are exact rationals (JS `number`
rounding to binary doubles is not modelled — the repository's numeric
fields are small quantities and scores). -/
inductive Json where
  | jnull
  | jbool (b : Bool)
  | jnum (q : Rat)
  | jstr (s : String)
  | jarr (xs : List Json)
  | jobj (fields : List (String × Json))

open Json

/-- Bytes stored in the ledger: either well-formed JSON (the tree
`JSON.parse` yields) or an unparseable blob. -/
inductive StoredVal where
  | json (j : Json)
  | malformed (raw : String)

/-- The ledger: key/value pairs kept in strictly ascending key order by
`ledgerPut`, matching Fabric's lexicographically ordered state store. -/
abbrev Ledger := List (String × StoredVal)

/-- `ctx.stub.getState` (first binding wins). -/
def getState : Ledger → String → Option StoredVal
  | [], _ => none
  | (k', v) :: rest, k => if k = k' then some v else getState rest k

/-- `ctx.stub.putState`: replace an existing binding or insert at the
sorted position. -/
def ledgerPut : Ledger → String → StoredVal → Ledger
  | [], k, v => [(k, v)]
  | (k', v') :: rest, k, v =>
    if strLtB k k' then (k, v) :: (k', v') :: rest
    else if k = k' then (k, v) :: rest
    else (k', v') :: ledgerPut rest k v

/-- `ctx.stub.getStateByRange startKey endKey` (start inclusive, end
exclusive), in ledger order. -/
def rangeScan (st : Ledger) (startKey endKey : String) : Ledger :=
  st.filter (fun kv => strLeB startKey kv.1 && strLtB kv.1 endKey)

/-! ## JavaScript dynamic semantics -/

/-- Runtime outcomes of a contract invocation that does not return
normally: a thrown `new Error(msg)`, a `TypeError` (property access on
`undefined`/`null` and similar), a `RangeError` (`toISOString` on an
invalid date), a JSON `SyntaxError`, or a failed ledger write. -/
inductive JsErr where
  | err (msg : String)
  | typeError
  | rangeError
  | syntaxError
  | storageError
deriving DecidableEq

/-- Field lookup in a JSON object literal. -/
def jfind : List (String × Json) → String → Option Json
  | [], _ => none
  | (k, v) :: rest, f => if f = k then some v else jfind rest f

/-- `doc.f` where `doc` is a known-defined value: missing fields and
fields of non-objects read as `undefined` (`none`). -/
def objGet (j : Json) (f : String) : Option Json :=
  match j with
  | jobj fields => jfind fields f
  | _ => none

/-- `v.f` for a possibly-`undefined` `v`: property access on
`undefined` or `null` throws `TypeError`. -/
def propGetE (v : Option Json) (f : String) : Except JsErr (Option Json) :=
  match v with
  | none => .error .typeError
  | some jnull => .error .typeError
  | some j => .ok (objGet j f)

/-- Property update `target.f = value` on an object, preserving the
key insertion order (existing keys updated in place, new keys appended),
as JavaScript object assignment does. -/
def setField : List (String × Json) → String → Json → List (String × Json)
  | [], f, v => [(f, v)]
  | (k, v') :: rest, f, v =>
    if f = k then (k, v) :: rest else (k, v') :: setField rest f v

def setObj (j : Json) (f : String) (v : Json) : Json :=
  match j with
  | jobj fields => jobj (setField fields f v)
  | _ => j

/-- Object-literal field whose value may be `undefined`:
`JSON.stringify` drops such properties, so the field is omitted. -/
def mkField (f : String) (v : Option Json) : List (String × Json) :=
  match v with
  | some j => [(f, j)]
  | none => []

/-- JS `ToString` as used for template interpolation and property keys
(string coercion of arrays and objects is simplified; the engine only
ever interpolates strings and numbers). -/
def jsToString (v : Option Json) : String :=
  match v with
  | none => "undefined"
  | some jnull => "null"
  | some (jbool b) => if b then "true" else "false"
  | some (jnum q) => if q.den = 1 then toString q.num else toString q
  | some (jstr s) => s
  | some (jarr _) => ""
  | some (jobj _) => "[object Object]"

/-- JS `ToNumber` for the comparisons the contract performs; `none` is
`NaN`.  (String-to-number coercion is not modelled; the contract's
numeric fields are JSON numbers.) -/
def toNumVal (v : Option Json) : Option Rat :=
  match v with
  | none => none
  | some jnull => some 0
  | some (jbool b) => some (if b then 1 else 0)
  | some (jnum q) => some q
  | some (jstr _) => none
  | some (jarr _) => none
  | some (jobj _) => none

/-- JS truthiness. -/
def truthy (v : Option Json) : Bool :=
  match v with
  | none => false
  | some jnull => false
  | some (jbool b) => b
  | some (jnum q) => q != 0
  | some (jstr s) => s != ""
  | some (jarr _) => true
  | some (jobj _) => true

/-- `v.length` (throws on `undefined`/`null`; arrays and strings have a
length, other values read `undefined`). -/
def lenValE (v : Option Json) : Except JsErr (Option Nat) :=
  match v with
  | none => .error .typeError
  | some jnull => .error .typeError
  | some (jarr xs) => .ok (some xs.length)
  | some (jstr s) => .ok (some s.length)
  | some _ => .ok none

/-- `v[i]` for a known-defined `v` (arrays index; strings index to
one-character strings; other values read `undefined`). -/
def indexVal (v : Option Json) (i : Nat) : Option Json :=
  match v with
  | some (jarr xs) => xs.get? i
  | some (jstr s) => (s.data.get? i).map (fun c => jstr (String.mk [c]))
  | _ => none

/-- `new Date(v).getTime()`: `none` is `NaN`. -/
def dateMillisVal (v : Option Json) : Option Int :=
  match v with
  | none => none
  | some jnull => some 0
  | some (jnum q) => some q.floor
  | some (jstr s) => parseISO s
  | some _ => none

/-- `new Date(v).toISOString().substring(0, 7)`: throws `RangeError`
on an invalid date. -/
def monthKeyE (t : Option Int) : Except JsErr String :=
  match t with
  | none => .error .rangeError
  | some t => .ok (monthKeyOfMillis t)

/-- `Math.round` (half towards +∞). -/
def jsRound (q : Rat) : Int := (q + 1/2).floor

/-! ## Evaluation environment

The source reads `Date.now()`, `Math.random()` and `new Date()` inside
transactions, and ledger writes may fail; these non-reproducible inputs
are made explicit. -/

structure Env where
  /-- `Date.now()` (and the instant `new Date()` observes). -/
  now : Int
  /-- `Math.random().toString(36).substr(2, 9)`. -/
  rand : String
  /-- Which keys `putState` fails on (a `StorageError` from the peer). -/
  fails : String → Bool

/-- The generated notification id
`` `NOTIF_${Date.now()}_${Math.random().toString(36).substr(2, 9)}` ``. -/
def notifKey (env : Env) : String :=
  "NOTIF_" ++ toString env.now ++ "_" ++ env.rand

/-- `ctx.stub.putState`, which may fail. -/
def ledgerPutE (env : Env) (st : Ledger) (k : String) (v : StoredVal) :
    Except JsErr Ledger :=
  if env.fails k then .error .storageError else .ok (ledgerPut st k v)

/-! ## Validation layer -/

def requiredMsg (fieldName : String) : String :=
  "The \x27" ++ fieldName ++ "\x27 field is required."

/-- `requireField` on a dynamically accessed value: rejects a string
that trims to empty, `null`, and `undefined`. -/
def requireFieldV (v : Option Json) (fieldName : String) : Except JsErr Unit :=
  match v with
  | some (jstr s) => if jsBlank s then .error (.err (requiredMsg fieldName)) else .ok ()
  | none => .error (.err (requiredMsg fieldName))
  | some jnull => .error (.err (requiredMsg fieldName))
  | some _ => .ok ()

/-- `requireField` on a string-typed transaction argument. -/
def requireFieldStr (s : String) (fieldName : String) : Except JsErr Unit :=
  if jsBlank s then .error (.err (requiredMsg fieldName)) else .ok ()

/-- `if (!this.isValidDate(x)) throw new Error(msg)` on a dynamic value:
`isValidDate` calls `dateString.includes`, which throws on defined
non-string values whose `new Date(...)` is a valid date. -/
def isValidDateV (v : Option Json) (msg : String) : Except JsErr Unit :=
  match v with
  | some (jstr s) => if isValidDate s then .ok () else .error (.err msg)
  | some (jnum _) => .error .typeError
  | some (jbool _) => .error .typeError
  | some jnull => .error .typeError
  | _ => .error (.err msg)

/-- `validateProductData` (lines 356–403 of the contract). -/
def validateProductData (product : Json) : Except JsErr Unit := do
  requireFieldV (objGet product "id") "id"
  requireFieldV (objGet product "name") "name"
  requireFieldV (objGet product "barcode") "barcode"
  requireFieldV (objGet product "placeOfOrigin") "placeOfOrigin"
  requireFieldV (objGet product "productionDate") "productionDate"
  requireFieldV (objGet product "expirationDate") "expirationDate"
  requireFieldV (objGet product "unitQuantity") "unitQuantity"
  requireFieldV (objGet product "unitQuantityType") "unitQuantityType"
  requireFieldV (objGet product "unitPrice") "unitPrice"
  requireFieldV (objGet product "category") "category"
  let cur ← propGetE (objGet product "locationData") "current"
  let curLoc ← propGetE cur "location"
  requireFieldV curLoc "locationData.current.location"
  let curAd ← propGetE cur "arrivalDate"
  requireFieldV curAd "locationData.current.arrivalDate"
  isValidDateV (objGet product "productionDate")
    "Invalid production date format. Use ISO 8601 format."
  isValidDateV (objGet product "expirationDate")
    "Invalid expiration date format. Use ISO 8601 format."
  isValidDateV curAd "Invalid arrival date format. Use ISO 8601 format."
  let pd := dateMillisVal (objGet product "productionDate")
  let ed := dateMillisVal (objGet product "expirationDate")
  if (match ed, pd with | some e, some p => decide (e ≤ p) | _, _ => false) then
    throw (.err "Expiration date must be after production date.")
  if (match toNumVal (objGet product "unitQuantity") with
      | some q => decide (q ≤ 0) | none => false) then
    throw (.err "Unit quantity must be positive.")
  let bq := objGet product "batchQuantity"
  if truthy bq &&
      (match toNumVal bq with | some q => decide (q ≤ 0) | none => false) then
    throw (.err "Batch quantity must be positive if specified.")
  let nameLen ← lenValE (objGet product "name")
  if (match nameLen with | some n => decide (100 < n) | none => false) then
    throw (.err "Product name too long (max 100 characters).")
  let originLen ← lenValE (objGet product "placeOfOrigin")
  if (match originLen with | some n => decide (200 < n) | none => false) then
    throw (.err "Place of origin too long (max 200 characters).")

/-- `validateQualityRecord` (lines 405–420). -/
def validateQualityRecord (qualityRecord : Json) : Except JsErr Unit := do
  requireFieldV (objGet qualityRecord "inspector") "inspector"
  requireFieldV (objGet qualityRecord "score") "score"
  requireFieldV (objGet qualityRecord "notes") "notes"
  requireFieldV (objGet qualityRecord "timestamp") "timestamp"
  if (match toNumVal (objGet qualityRecord "score") with
      | some q => decide (q < 0) || decide (100 < q) | none => false) then
    throw (.err "Quality score must be between 0 and 100.")
  isValidDateV (objGet qualityRecord "timestamp")
    "Invalid timestamp format. Use ISO 8601 format."

/-! ## Product management transactions -/

/-- `productExists`: non-empty data is stored at the key. -/
def productExists (st : Ledger) (productId : String) : Bool :=
  (getState st productId).isSome

/-- `readProduct`: `getState` then `JSON.parse`. -/
def readProduct (st : Ledger) (productId : String) : Except JsErr Json :=
  match getState st productId with
  | none => .error (.err ("The product " ++ productId ++ " does not exist."))
  | some (.malformed _) => .error .syntaxError
  | some (.json j) => .ok j

/-- `createNotification` (lines 427–435): a best-effort write — a failed
`putState` is caught, logged and discarded, leaving the ledger as it
was. -/
def createNotification (env : Env) (st : Ledger) (notificationData : Json) :
    Ledger :=
  match ledgerPutE env st (jsToString (objGet notificationData "id"))
      (.json notificationData) with
  | .error _ => st
  | .ok st' => st'

/-- The notification document built by `createProduct`. -/
def createdNotif (env : Env) (productId : String) (nameV originV : Option Json) :
    Json :=
  jobj ([("id", jstr (notifKey env)), ("productId", jstr productId),
         ("type", jstr "created"),
         ("message", jstr ("Product " ++ jsToString nameV ++ " created at " ++
           jsToString originV)),
         ("timestamp", jstr (isoRender env.now))] ++
        mkField "location" originV ++
        [("severity", jstr "info"), ("acknowledged", jbool false)])

/-- `createProduct` (lines 27–53): parse, validate, existence check,
write, then a best-effort `created` notification. -/
def createProduct (env : Env) (st : Ledger) (productJson : Json) :
    Except JsErr Ledger := do
  let product := productJson
  validateProductData product
  match objGet product "id" with
  | some (jstr pid) =>
    if productExists st pid then
      throw (.err ("The product " ++ pid ++ " already exists."))
    else do
      let st₁ ← ledgerPutE env st pid (.json product)
      return createNotification env st₁
        (createdNotif env pid (objGet product "name") (objGet product "placeOfOrigin"))
  | _ => throw .typeError

/-- The in-place mutation of the product document performed by
`shipProductTo` (lines 72–77): push the present `current` entry onto
`previous`, then overwrite `current.arrivalDate` and
`current.location`. -/
def shipDocUpdate (product : Json) (newLocation arrivalDate : String) :
    Except JsErr Json := do
  let locData := objGet product "locationData"
  let prev ← propGetE locData "previous"
  match prev with
  | none => throw .typeError
  | some prevVal =>
    let cur ← propGetE locData "current"
    let ad ← propGetE cur "arrivalDate"
    let loc ← propGetE cur "location"
    let entry := jobj (mkField "arrivalDate" ad ++ mkField "location" loc)
    match prevVal, cur with
    | jarr xs, some (jobj curFields) =>
      let curFields₁ :=
        setField (setField curFields "arrivalDate" (jstr arrivalDate))
          "location" (jstr newLocation)
      match locData with
      | some ld =>
        return setObj product "locationData"
          (setObj (setObj ld "previous" (jarr (xs ++ [entry])))
            "current" (jobj curFields₁))
      | none => throw .typeError
    | _, _ => throw .typeError

/-- The notification document built by `shipProductTo`. -/
def shippedNotif (env : Env) (productId : String) (nameV : Option Json)
    (newLocation : String) : Json :=
  jobj [("id", jstr (notifKey env)), ("productId", jstr productId),
        ("type", jstr "shipped"),
        ("message", jstr ("Product " ++ jsToString nameV ++ " shipped to " ++
          newLocation)),
        ("timestamp", jstr (isoRender env.now)),
        ("location", jstr newLocation),
        ("severity", jstr "info"), ("acknowledged", jbool false)]

/-- `shipProductTo` (lines 55–93). -/
def shipProductTo (env : Env) (st : Ledger)
    (productId newLocation arrivalDate : String) : Except JsErr Ledger := do
  if !(productExists st productId) then
    throw (.err ("The product " ++ productId ++ " does not exist."))
  requireFieldStr newLocation "newLocation"
  requireFieldStr arrivalDate "arrivalDate"
  if !(isValidDate arrivalDate) then
    throw (.err "Invalid arrival date format. Use ISO 8601 format.")
  let product ← readProduct st productId
  let updated ← shipDocUpdate product newLocation arrivalDate
  let st₁ ← ledgerPutE env st productId (.json updated)
  return createNotification env st₁
    (shippedNotif env productId (objGet updated "name") newLocation)

/-- `getProduct` (lines 95–104). -/
def getProduct (st : Ledger) (productId : String) : Except JsErr Json := do
  if !(productExists st productId) then
    throw (.err ("The product " ++ productId ++ " does not exist."))
  readProduct st productId

/-! ## Query engine -/

def parseStored (v : StoredVal) : Option Json :=
  match v with
  | .json j => some j
  | .malformed _ => none

/-- `queryAllProducts` (lines 130–135): every stored document that
parses and has an `id` member, in ledger (key) order; unparseable
entries are skipped. -/
def queryAllProducts (st : Ledger) : List Json :=
  st.filterMap (fun kv =>
    match parseStored kv.2 with
    | some j => if (objGet j "id").isSome then some j else none
    | none => none)

/-- `getAllQualityRecords` (lines 456–474): every stored document that
parses and has an `inspector` member. -/
def getAllQualityRecords (st : Ledger) : List Json :=
  st.filterMap (fun kv =>
    match parseStored kv.2 with
    | some j => if (objGet j "inspector").isSome then some j else none
    | none => none)

/-! ## Quality assurance transactions -/

/-- The quality-record storage key `` `QUALITY_${productId}_${Date.now()}` ``. -/
def qualityKey (productId : String) (now : Int) : String :=
  "QUALITY_" ++ productId ++ "_" ++ toString now

/-- The notification document built by `addQualityRecord`. -/
def qualityNotif (env : Env) (productId : String) (qualityRecord : Json)
    (severity : String) : Json :=
  jobj ([("id", jstr (notifKey env)), ("productId", jstr productId),
         ("type", jstr "quality_check"),
         ("message", jstr ("Quality inspection completed for " ++ productId ++
           ". Score: " ++ jsToString (objGet qualityRecord "score") ++ "/100")),
         ("timestamp", jstr (isoRender env.now))] ++
        mkField "location" (objGet qualityRecord "location") ++
        [("severity", jstr severity), ("acknowledged", jbool false)])

/-- `addQualityRecord` (lines 155–181). -/
def addQualityRecord (env : Env) (st : Ledger) (productId : String)
    (qualityData : Json) : Except JsErr Ledger := do
  if !(productExists st productId) then
    throw (.err ("The product " ++ productId ++ " does not exist."))
  let qualityRecord := qualityData
  validateQualityRecord qualityRecord
  let st₁ ← ledgerPutE env st (qualityKey productId env.now) (.json qualityRecord)
  let severity :=
    match toNumVal (objGet qualityRecord "score") with
    | some q => if 80 ≤ q then "info" else if 60 ≤ q then "warning" else "error"
    | none => "error"
  return createNotification env st₁ (qualityNotif env productId qualityRecord severity)

/-- The sort comparator of `getQualityRecords`
(`new Date(b.timestamp).getTime() - new Date(a.timestamp).getTime()`):
`tsLeB a b` holds when the comparator does not require `a` to come
after `b`.  When either timestamp fails to parse the subtraction is
`NaN`, which `Array.prototype.sort` treats as `0`, so the pair
compares as equal — in both directions.  With such records the
comparator is not a consistent total preorder, ECMA-262 leaves the
resulting order implementation-defined, and the model commits to the
stable `mergeSort` outcome; the ordering theorem on
`getQualityRecords` is therefore stated only for scans on which every
returned timestamp parses (where any conforming stable sort produces
the same unique order). -/
def tsLeB (a b : Json) : Bool :=
  match dateMillisVal (objGet a "timestamp"),
      dateMillisVal (objGet b "timestamp") with
  | some ta, some tb => decide (tb ≤ ta)
  | _, _ => true

/-- `getQualityRecords` (lines 183–205): range scan over
`QUALITY_<id>_` … `QUALITY_<id>_￿`, skipping entries that fail to
parse, then a stable sort by the timestamp comparator `tsLeB`. -/
def getQualityRecords (st : Ledger) (productId : String) : List Json :=
  let startKey := "QUALITY_" ++ productId ++ "_"
  let endKey := "QUALITY_" ++ productId ++ "_￿"
  let records := (rangeScan st startKey endKey).filterMap (fun kv => parseStored kv.2)
  records.mergeSort tsLeB

/-! ## Analytics -/

structure MonthlyTrend where
  month : String
  products : Nat
  shipments : Nat
deriving DecidableEq

/-- The object returned by `getAnalyticsData`.  `averageDeliveryTime`
and `qualityScore` are `Option`-valued because the JS computation can
produce `NaN` (`none`). -/
structure AnalyticsData where
  totalProducts : Nat
  activeShipments : Nat
  completedDeliveries : Nat
  averageDeliveryTime : Option Int
  onTimeDeliveryRate : Int
  qualityScore : Option Rat
  categoryStats : List (String × Nat)
  locationStats : List (String × Nat)
  monthlyTrends : List MonthlyTrend
deriving DecidableEq

/-- The mutable locals of the product loop in `getAnalyticsData`. -/
structure AnAcc where
  categoryStats : List (String × Nat)
  locationStats : List (String × Nat)
  monthlyData : List (String × Nat × Nat)
  totalDeliveryTime : Option Int
  deliveryCount : Nat
  onTimeDeliveries : Nat

/-- `stats[k] = (stats[k] || 0) + 1` (JS object key insertion order). -/
def bump : List (String × Nat) → String → List (String × Nat)
  | [], k => [(k, 1)]
  | (k', n) :: rest, k =>
    if k = k' then (k', n + 1) :: rest else (k', n) :: bump rest k

/-- Create the month bucket if needed and count a production. -/
def bumpMonthProducts : List (String × Nat × Nat) → String → List (String × Nat × Nat)
  | [], k => [(k, 1, 0)]
  | (k', p, s) :: rest, k =>
    if k = k' then (k', p + 1, s) :: rest else (k', p, s) :: bumpMonthProducts rest k

/-- Count a shipment only when the month bucket already exists
(`if (monthlyData[shipmentMonth]) \x7b ... \x7d`). -/
def bumpMonthShipments : List (String × Nat × Nat) → String → List (String × Nat × Nat)
  | [], _ => []
  | (k', p, s) :: rest, k =>
    if k = k' then (k', p, s + 1) :: rest else (k', p, s) :: bumpMonthShipments rest k

/-- `NaN`-aware addition and subtraction. -/
def addNaN (a b : Option Int) : Option Int :=
  match a, b with
  | some x, some y => some (x + y)
  | _, _ => none

def subNaN (a b : Option Int) : Option Int :=
  match a, b with
  | some x, some y => some (x - y)
  | _, _ => none

def addNaNQ (a b : Option Rat) : Option Rat :=
  match a, b with
  | some x, some y => some (x + y)
  | _, _ => none

/-- One iteration of the product loop of `getAnalyticsData`
(lines 229–265), faithful to the dynamic accesses: a document without a
well-formed `locationData` throws a `TypeError`, an unparseable
`productionDate` (or `current.arrivalDate` of a moved product) throws a
`RangeError` at `toISOString`. -/
def anStep (acc : AnAcc) (doc : Json) : Except JsErr AnAcc := do
  let cs := bump acc.categoryStats (jsToString (objGet doc "category"))
  let locData := objGet doc "locationData"
  let cur ← propGetE locData "current"
  let curLocV ← propGetE cur "location"
  let ls := bump acc.locationStats (jsToString curLocV)
  let pm ← monthKeyE (dateMillisVal (objGet doc "productionDate"))
  let md := bumpMonthProducts acc.monthlyData pm
  let prev ← propGetE locData "previous"
  let len ← lenValE prev
  if (match len with | some n => decide (0 < n) | none => false) then
    let firstLoc := indexVal prev 0
    let cad ← propGetE cur "arrivalDate"
    let fad ← propGetE firstLoc "arrivalDate"
    let dt := subNaN (dateMillisVal cad) (dateMillisVal fad)
    let sm ← monthKeyE (dateMillisVal cad)
    let md₁ := bumpMonthShipments md sm
    let onTime := match dt with | some t => decide (t ≤ 7 * 86400000) | none => false
    return { categoryStats := cs, locationStats := ls, monthlyData := md₁,
             totalDeliveryTime := addNaN acc.totalDeliveryTime dt,
             deliveryCount := acc.deliveryCount + 1,
             onTimeDeliveries := acc.onTimeDeliveries + (if onTime then 1 else 0) }
  else
    return { categoryStats := cs, locationStats := ls, monthlyData := md,
             totalDeliveryTime := acc.totalDeliveryTime,
             deliveryCount := acc.deliveryCount,
             onTimeDeliveries := acc.onTimeDeliveries }

def anLoop : AnAcc → List Json → Except JsErr AnAcc
  | acc, [] => .ok acc
  | acc, d :: ds => do
    let acc' ← anStep acc d
    anLoop acc' ds

/-- `totalQualityScore` accumulation (`+= record.score`, `NaN`-poisoning). -/
def qsStep (s : Option Rat) (doc : Json) : Option Rat :=
  addNaNQ s (toNumVal (objGet doc "score"))

/-- `p.locationData.previous.length` as evaluated by the two filters in
the return statement of `getAnalyticsData`. -/
def prevLenE (doc : Json) : Except JsErr (Option Nat) := do
  let prev ← propGetE (objGet doc "locationData") "previous"
  lenValE prev

/-- The body of `getAnalyticsData` (lines 213–308) over the already
fetched document lists. -/
def analyticsCore (docs qdocs : List Json) : Except JsErr AnalyticsData := do
  let totalProducts := docs.length
  let acc ← anLoop ⟨[], [], [], some 0, 0, 0⟩ docs
  let totalQualityScore := qdocs.foldl qsStep (some 0)
  let qualityCount := qdocs.length
  let averageDeliveryTime : Option Int :=
    if 0 < acc.deliveryCount then
      acc.totalDeliveryTime.map
        (fun t => jsRound ((t : Rat) / (acc.deliveryCount : Rat) / 86400000))
    else some 0
  let onTimeDeliveryRate : Int :=
    if 0 < acc.deliveryCount then
      jsRound ((acc.onTimeDeliveries : Rat) / (acc.deliveryCount : Rat) * 100)
    else 100
  let qualityScore : Option Rat :=
    if 0 < qualityCount then
      totalQualityScore.map
        (fun s => (jsRound (s / (qualityCount : Rat) * 10) : Rat) / 10)
    else some 95
  let lens ← docs.mapM prevLenE
  let activeShipments :=
    (lens.filter (fun l => match l with
      | some n => decide (0 < n) && decide (n < 3) | none => false)).length
  let completedDeliveries :=
    (lens.filter (fun l => match l with
      | some n => decide (2 ≤ n) | none => false)).length
  let sortedMonths := acc.monthlyData.mergeSort (fun a b => strLeB a.1 b.1)
  let lastSix := sortedMonths.drop (sortedMonths.length - 6)
  let monthlyTrends := lastSix.map (fun e =>
    { month := match parseISO (e.1 ++ "-01") with
               | some t => monthShortOfMillis t
               | none => "Invalid Date",
      products := e.2.1, shipments := e.2.2 : MonthlyTrend })
  return { totalProducts, activeShipments, completedDeliveries,
           averageDeliveryTime, onTimeDeliveryRate, qualityScore,
           categoryStats := acc.categoryStats,
           locationStats := acc.locationStats, monthlyTrends }

/-- `getAnalyticsData` (lines 211–308). -/
def getAnalyticsData (st : Ledger) : Except JsErr AnalyticsData :=
  analyticsCore (queryAllProducts st) (getAllQualityRecords st)

/-! ## Typed views of the stored documents

The TypeScript models (`models/product.ts`, `models/quality-record.ts`)
as Lean structures, together with their JSON wire form.  `misc` is an
opaque caller-owned JSON payload.  Optional members absent from a
payload are omitted from the serialized object, matching
`JSON.stringify` on `undefined` properties; a `variety` of `none` is
serialized as JSON `null` as in the repository's sample data. -/

structure ProductLocationEntry where
  arrivalDate : String
  location : String
deriving DecidableEq

structure ProductLocationData where
  current : ProductLocationEntry
  previous : List ProductLocationEntry
deriving DecidableEq

structure Product where
  id : String
  componentProductIds : List String
  barcode : String
  name : String
  placeOfOrigin : String
  productionDate : String
  expirationDate : String
  unitQuantity : Rat
  unitQuantityType : String
  batchQuantity : Option Rat
  unitPrice : String
  category : String
  variety : Option String
  misc : Option Json
  locationData : ProductLocationData

def encodeEntry (e : ProductLocationEntry) : Json :=
  jobj [("arrivalDate", jstr e.arrivalDate), ("location", jstr e.location)]

def encodeLocationData (l : ProductLocationData) : Json :=
  jobj [("current", encodeEntry l.current),
        ("previous", jarr (l.previous.map encodeEntry))]

def encodeProduct (p : Product) : Json :=
  jobj ([("id", jstr p.id),
         ("componentProductIds", jarr (p.componentProductIds.map jstr)),
         ("barcode", jstr p.barcode),
         ("name", jstr p.name),
         ("placeOfOrigin", jstr p.placeOfOrigin),
         ("productionDate", jstr p.productionDate),
         ("expirationDate", jstr p.expirationDate),
         ("unitQuantity", jnum p.unitQuantity),
         ("unitQuantityType", jstr p.unitQuantityType)] ++
        (match p.batchQuantity with
         | some q => [("batchQuantity", jnum q)]
         | none => []) ++
        [("unitPrice", jstr p.unitPrice),
         ("category", jstr p.category),
         ("variety", match p.variety with | some v => jstr v | none => jnull)] ++
        (match p.misc with
         | some m => [("misc", m)]
         | none => []) ++
        [("locationData", encodeLocationData p.locationData)])

def decodeEntry (j : Json) : Option ProductLocationEntry :=
  match objGet j "arrivalDate", objGet j "location" with
  | some (jstr a), some (jstr l) => some ⟨a, l⟩
  | _, _ => none

def decodeEntries : List Json → Option (List ProductLocationEntry)
  | [] => some []
  | j :: js =>
    match decodeEntry j, decodeEntries js with
    | some e, some es => some (e :: es)
    | _, _ => none

def decodeLocationData (j : Json) : Option ProductLocationData :=
  match objGet j "current", objGet j "previous" with
  | some cur, some (jarr prev) =>
    match decodeEntry cur, decodeEntries prev with
    | some c, some ps => some ⟨c, ps⟩
    | _, _ => none
  | _, _ => none

def decodeStrs : List Json → Option (List String)
  | [] => some []
  | jstr s :: js =>
    match decodeStrs js with
    | some ss => some (s :: ss)
    | none => none
  | _ :: _ => none

def decodeStr (v : Option Json) : Option String :=
  match v with
  | some (jstr s) => some s
  | _ => none

def decodeProduct (j : Json) : Option Product :=
  match decodeStr (objGet j "id"), objGet j "componentProductIds",
      decodeStr (objGet j "barcode"), decodeStr (objGet j "name"),
      decodeStr (objGet j "placeOfOrigin"),
      decodeStr (objGet j "productionDate"),
      decodeStr (objGet j "expirationDate"), objGet j "unitQuantity" with
  | some id, some (jarr comps), some barcode, some name, some origin,
      some pd, some ed, some (jnum uq) =>
    match decodeStrs comps,
        decodeStr (objGet j "unitQuantityType"),
        decodeStr (objGet j "unitPrice"), decodeStr (objGet j "category"),
        objGet j "locationData" with
    | some compIds, some uqt, some up, some cat, some ld =>
      match decodeLocationData ld with
      | some locData =>
        match objGet j "batchQuantity", objGet j "variety" with
        | bqv, some varv =>
          match (match bqv with
                 | none => some Option.none
                 | some (jnum q) => some (Option.some q)
                 | some _ => Option.none),
                (match varv with
                 | jnull => some Option.none
                 | jstr v => some (Option.some v)
                 | _ => Option.none) with
          | some bq, some variety =>
            some { id, componentProductIds := compIds, barcode, name,
                   placeOfOrigin := origin, productionDate := pd,
                   expirationDate := ed, unitQuantity := uq,
                   unitQuantityType := uqt, batchQuantity := bq,
                   unitPrice := up, category := cat, variety,
                   misc := objGet j "misc", locationData := locData }
          | _, _ => none
        | _, none => none
      | none => none
    | _, _, _, _, _ => none
  | _, _, _, _, _, _, _, _ => none

/-! ## Concrete fixtures (used by witnesses and counterexamples) -/

/-- The written keys of a transaction result (empty on failure). -/
def ledgerKeysOf (r : Except JsErr Ledger) : List String :=
  match r with
  | .ok st => st.map Prod.fst
  | .error _ => []

/-- The sample product of the repository's test suite. -/
def pEx : Product :=
  { id := "1001", componentProductIds := [], barcode := "1234567890",
    name := "Apples", placeOfOrigin := "Markham, ON, Canada",
    productionDate := "2021-06-24T18:25:43.511Z",
    expirationDate := "2022-06-24T18:25:43.511Z",
    unitQuantity := 300, unitQuantityType := "mg", batchQuantity := some 1000,
    unitPrice := "$5.00", category := "Fruits", variety := none, misc := none,
    locationData :=
      { current := { arrivalDate := "2021-07-30T18:00:58.511Z",
                     location := "Toronto, ON, Canada" },
        previous := [{ arrivalDate := "2021-06-24T18:25:43.511Z",
                       location := "Markham, ON, Canada" }] } }

def envEx : Env :=
  { now := 1624559143511, rand := "k3j9d8s7a", fails := fun _ => false }

def envEx2 : Env :=
  { now := 1624559143512, rand := "q0p1w2e3r", fails := fun _ => false }

/-- A ledger already holding `pEx` under its id. -/
def stEx : Ledger := [("1001", .json (encodeProduct pEx))]

/-- A quality-record document. -/
def qrDoc (pid ts : String) (score : Rat) : Json :=
  jobj [("productId", jstr pid), ("inspector", jstr "Bob"),
        ("score", jnum score), ("notes", jstr "routine check"),
        ("timestamp", jstr ts)]

/-- An environment whose ledger rejects exactly the write of its own
generated notification key. -/
def envFail : Env :=
  { now := 1624559143511, rand := "k3j9d8s7a",
    fails := fun k => k == "NOTIF_1624559143511_k3j9d8s7a" }

/-- The typed effect of a shipment on a product record: `current`
becomes the new entry and the old `current` is appended to
`previous`. -/
def shipResult (p : Product) (newLocation arrivalDate : String) : Product :=
  { p with locationData :=
      { current := { arrivalDate := arrivalDate, location := newLocation },
        previous := p.locationData.previous ++ [p.locationData.current] } }

/-! ## Proof-side views of the analytics loop -/

/-- The `YYYY-MM` production-month key of a typed product
(`new Date(p.productionDate).toISOString().substring(0, 7)`). -/
def prodMonthKey (p : Product) : String :=
  monthKeyOfMillis ((parseISO p.productionDate).getD 0)

/-- The `YYYY-MM` month key of the current arrival date. -/
def arrMonthKey (p : Product) : String :=
  monthKeyOfMillis ((parseISO p.locationData.current.arrivalDate).getD 0)

/-- The dates the analytics loop turns into month keys parse: the
production date always, the current arrival date whenever the product
has moved (otherwise `toISOString` throws). -/
def dateOkP (p : Product) : Prop :=
  (parseISO p.productionDate).isSome ∧
  (p.locationData.previous ≠ [] →
    (parseISO p.locationData.current.arrivalDate).isSome)

instance (p : Product) : Decidable (dateOkP p) :=
  inferInstanceAs (Decidable (_ ∧ _))

/-- One analytics-loop iteration on the typed view of a well-formed
product document; `anStep_encode` proves it matches `anStep` on the
wire form. -/
def anStepP (acc : AnAcc) (p : Product) : AnAcc :=
  let cs := bump acc.categoryStats p.category
  let ls := bump acc.locationStats p.locationData.current.location
  let md := bumpMonthProducts acc.monthlyData (prodMonthKey p)
  match p.locationData.previous with
  | [] =>
    { categoryStats := cs, locationStats := ls, monthlyData := md,
      totalDeliveryTime := acc.totalDeliveryTime,
      deliveryCount := acc.deliveryCount,
      onTimeDeliveries := acc.onTimeDeliveries }
  | e :: _ =>
    let dt := subNaN (parseISO p.locationData.current.arrivalDate)
      (parseISO e.arrivalDate)
    { categoryStats := cs, locationStats := ls,
      monthlyData := bumpMonthShipments md (arrMonthKey p),
      totalDeliveryTime := addNaN acc.totalDeliveryTime dt,
      deliveryCount := acc.deliveryCount + 1,
      onTimeDeliveries := acc.onTimeDeliveries +
        (if (match dt with
             | some t => decide (t ≤ 7 * 86400000)
             | none => false) then 1 else 0) }

/-- The loop's initial accumulator. -/
def acc₀ : AnAcc := ⟨[], [], [], some 0, 0, 0⟩

/-- The month buckets after scanning `ps`. -/
def monthlyDataOf (ps : List Product) : List (String × Nat × Nat) :=
  (ps.foldl anStepP acc₀).monthlyData

def monthFind : List (String × Nat × Nat) → String → Option (Nat × Nat)
  | [], _ => none
  | (k, v) :: rest, m => if m = k then some v else monthFind rest m

/-- Number of products whose production month is `m`. -/
def countProductionsIn (ps : List Product) (m : String) : Nat :=
  ps.countP (fun p => prodMonthKey p == m)

/-- The shipment count the source actually accumulates for bucket `m`:
a shipped product's arrival month is counted only when the bucket
already exists at that point of the scan — created by an earlier (or
its own) production month, or already present (`already = true`). -/
def countShipmentsFrom (already : Bool) : List Product → String → Nat
  | [], _ => 0
  | p :: ps, m =>
    let already' := already || (prodMonthKey p == m)
    (if !p.locationData.previous.isEmpty && (arrMonthKey p == m) && already'
     then 1 else 0) + countShipmentsFrom already' ps m

/-- The evolution of a single month bucket under one loop iteration. -/
def bucketStep (m : String) (b : Option (Nat × Nat)) (p : Product) :
    Option (Nat × Nat) :=
  let b₁ := if prodMonthKey p == m then
      some ((b.getD (0, 0)).1 + 1, (b.getD (0, 0)).2) else b
  match p.locationData.previous with
  | [] => b₁
  | _ :: _ =>
    if arrMonthKey p == m then
      match b₁ with
      | some (a, s) => some (a, s + 1)
      | none => none
    else b₁

theorem decodeEntry_encodeEntry (e : ProductLocationEntry) :
    decodeEntry (encodeEntry e) = some e := rfl

theorem decode_encodeProduct (p : Product) :
    decodeProduct (encodeProduct p) = some p := by
  rcases p with ⟨id, comps, barcode, name, origin, pd, ed, uq, uqt, bq, up,
    cat, variety, misc, ⟨cur, prev⟩⟩
  have hcomps : decodeStrs (comps.map jstr) = some comps := by
    induction comps with
    | nil => rfl
    | cons c cs ih => simp [decodeStrs, ih]
  have hprev : decodeEntries (prev.map encodeEntry) = some prev := by
    induction prev with
    | nil => rfl
    | cons e es ih => simp [decodeEntries, decodeEntry_encodeEntry, ih]
  cases bq <;> cases variety <;> cases misc <;>
    simp +decide [decodeProduct, encodeProduct, decodeStr, objGet, jfind,
      decodeLocationData, encodeLocationData, hcomps, hprev,
      decodeEntry_encodeEntry]

/-! ## Ledger lookup lemmas -/

theorem listLtB_irrefl : ∀ cs : List Char, listLtB cs cs = false
  | [] => rfl
  | c :: cs => by simp [listLtB, listLtB_irrefl cs]

theorem strLtB_irrefl (a : String) : strLtB a a = false :=
  listLtB_irrefl a.data

theorem getState_ledgerPut_self (st : Ledger) (k : String) (v : StoredVal) :
    getState (ledgerPut st k v) k = some v := by
  induction st with
  | nil => simp [ledgerPut, getState]
  | cons kv rest ih =>
    by_cases h₁ : strLtB k kv.1 = true
    · simp [ledgerPut, h₁, getState]
    · by_cases h₂ : k = kv.1
      · simp [ledgerPut, h₁, h₂, getState, strLtB_irrefl]
      · simp [ledgerPut, h₁, h₂, getState, ih]

theorem getState_ledgerPut_other (st : Ledger) (k k' : String) (v : StoredVal)
    (h : k' ≠ k) : getState (ledgerPut st k v) k' = getState st k' := by
  induction st with
  | nil => simp [ledgerPut, getState, h]
  | cons kv rest ih =>
    by_cases h₁ : strLtB k kv.1 = true
    · simp [ledgerPut, h₁, getState, h]
    · by_cases h₂ : k = kv.1
      · subst h₂
        simp [ledgerPut, h₁, getState, h]
      · by_cases h₃ : k' = kv.1 <;> simp [ledgerPut, h₁, h₂, getState, h₃, ih]

/-- The binding `getState` finds is a member of the ledger list. -/
theorem getState_mem (st : Ledger) (k : String) (v : StoredVal)
    (h : getState st k = some v) : (k, v) ∈ st := by
  induction st with
  | nil => simp [getState] at h
  | cons kv rest ih =>
    by_cases h₁ : k = kv.1
    · subst h₁
      simp [getState] at h
      simp [← h]
    · simp [getState, h₁] at h
      exact List.mem_cons_of_mem _ (ih h)

/-! ## Claim theorems -/

unseal List.merge List.mergeSort

/-- Claim C9. `getAnalyticsData` on an empty ledger (no products, no
quality records) returns `totalProducts == 0`,
`onTimeDeliveryRate == 100`, `qualityScore == 95.0`, and empty
`categoryStats` (the defaults of lines 278–307). -/
theorem c9_empty_analytics :
    getAnalyticsData [] =
      .ok { totalProducts := 0, activeShipments := 0,
            completedDeliveries := 0, averageDeliveryTime := some 0,
            onTimeDeliveryRate := 100, qualityScore := some 95,
            categoryStats := [], locationStats := [], monthlyTrends := [] } :=
  rfl

/-- Claim C1. The engine is not deterministic: `createProduct` and
`addQualityRecord`, run twice with identical arguments and identical
prior ledger state but at different `Date.now()` / `Math.random()`
readings, write different key sets (the generated notification id and
the quality-record key embed the wall clock and a random token), so the
writes are not byte-identical.  This contradicts the determinism the
spec mandates for the replicated execution environment; the spec itself
flags the id generation as the violation (§9). -/
theorem c1_wallclock_dependence :
    ledgerKeysOf (createProduct envEx [] (encodeProduct pEx)) ≠
      ledgerKeysOf (createProduct envEx2 [] (encodeProduct pEx)) ∧
    ledgerKeysOf (addQualityRecord envEx stEx "1001"
        (qrDoc "1001" "2021-06-24T18:25:43.511Z" 90)) ≠
      ledgerKeysOf (addQualityRecord envEx2 stEx "1001"
        (qrDoc "1001" "2021-06-24T18:25:43.511Z" 90)) :=
  ⟨by decide, by decide⟩

/-- Claim C3, counterexample. A payload whose id `1001` already exists
but whose `name` field is empty is rejected with the *validation* error,
not with `AlreadyExists`: `validateProductData` runs before the
existence check (line 32 versus line 34). -/
theorem c3_validation_precedes_existence_cex :
    productExists stEx "1001" = true ∧
    createProduct envEx stEx (encodeProduct { pEx with name := "" }) =
      .error (.err "The \x27name\x27 field is required.") ∧
    JsErr.err "The \x27name\x27 field is required." ≠
      JsErr.err "The product 1001 already exists." :=
  ⟨rfl, rfl, by decide⟩

/-- Claim C3, amended. `createProduct` validates the payload *first*;
when the id already exists, the call fails — with `AlreadyExists` if
the payload passes validation, and with the validation error otherwise —
and in either case no state is written (the transaction aborts before
any `putState`). -/
theorem c3_amended_create_duplicate (env : Env) (st : Ledger) (doc : Json)
    (pid : String)
    (hid : objGet doc "id" = some (jstr pid))
    (hex : productExists st pid = true) :
    createProduct env st doc =
      (validateProductData doc).bind
        (fun _ => .error (.err ("The product " ++ pid ++ " already exists."))) := by
  cases hv : validateProductData doc with
  | error e => simp only [createProduct, hv]; rfl
  | ok u =>
    simp only [createProduct, hv, hid, hex, Except.bind, if_pos]
    rfl

theorem c3_amended_witness :
    objGet (encodeProduct { pEx with name := "" }) "id" = some (jstr "1001") ∧
    productExists stEx "1001" = true ∧
    createProduct envEx stEx (encodeProduct { pEx with name := "" }) =
      (validateProductData (encodeProduct { pEx with name := "" })).bind
        (fun _ => .error (.err ("The product " ++ "1001" ++ " already exists."))) ∧
    createProduct envEx stEx (encodeProduct pEx) =
      (validateProductData (encodeProduct pEx)).bind
        (fun _ => .error (.err ("The product " ++ "1001" ++ " already exists."))) ∧
    createProduct envEx stEx (encodeProduct pEx) =
      .error (.err "The product 1001 already exists.") :=
  ⟨rfl, rfl,
   c3_amended_create_duplicate envEx stEx _ "1001" rfl rfl,
   c3_amended_create_duplicate envEx stEx _ "1001" rfl rfl,
   rfl⟩

/-- `shipProductTo`'s in-place document mutation, computed on the wire
form of a typed product. -/
theorem shipDocUpdate_encode (p : Product) (L T : String) :
    shipDocUpdate (encodeProduct p) L T =
      .ok (encodeProduct (shipResult p L T)) := by
  rcases p with ⟨id, comps, barcode, name, origin, pd, ed, uq, uqt, bq, up,
    cat, variety, misc, ⟨⟨ca, cl⟩, prev⟩⟩
  cases bq <;> cases variety <;> cases misc <;>
    simp +decide [shipDocUpdate, encodeProduct, shipResult,
      encodeLocationData, encodeEntry, objGet, jfind, propGetE, mkField,
      setObj, setField, Except.bind] <;> rfl

theorem objGet_encode_name (p : Product) :
    objGet (encodeProduct p) "name" = some (jstr p.name) := rfl

/-- Claim C2. For an existing product `p`, a non-blank location `L` and a
valid ISO date-time `T` (and writes that succeed, with the generated
notification id distinct from the product key), `shipProductTo` stores
a product whose `current` is `(L, T)`, whose `previous` is the old
`previous` with the old `current` appended (so it grows by exactly one
and keeps all prior elements in order). -/
theorem c2_ship_appends_history (env : Env) (st : Ledger)
    (pid L T : String) (p : Product)
    (hst : getState st pid = some (.json (encodeProduct p)))
    (hL : jsBlank L = false) (hT : jsBlank T = false)
    (hd : isValidDate T = true)
    (hfail : env.fails pid = false)
    (hnk : notifKey env ≠ pid) :
    ∃ st',
      shipProductTo env st pid L T = .ok st' ∧
      getState st' pid = some (.json (encodeProduct (shipResult p L T))) ∧
      (shipResult p L T).locationData.current =
        { arrivalDate := T, location := L } ∧
      (shipResult p L T).locationData.previous =
        p.locationData.previous ++ [p.locationData.current] ∧
      (shipResult p L T).locationData.previous.length =
        p.locationData.previous.length + 1 ∧
      (shipResult p L T).locationData.previous.take
          p.locationData.previous.length = p.locationData.previous := by
  refine ⟨createNotification env
      (ledgerPut st pid (.json (encodeProduct (shipResult p L T))))
      (shippedNotif env pid (some (jstr p.name)) L), ?_, ?_, rfl, rfl,
      by simp [shipResult], by simp [shipResult]⟩
  · simp [shipProductTo, productExists, hst, requireFieldStr, hL, hT, hd,
      readProduct, shipDocUpdate_encode, ledgerPutE, hfail,
      objGet_encode_name, Except.bind, bind, Except.instMonad]
    rfl
  · show getState (createNotification _ _ _) pid = _
    rw [createNotification]
    by_cases hf : env.fails (notifKey env) = true
    · simp [ledgerPutE, shippedNotif, objGet, jfind, jsToString, hf,
        getState_ledgerPut_self]
    · simp only [Bool.not_eq_true] at hf
      simp [ledgerPutE, shippedNotif, objGet, jfind, jsToString, hf,
        getState_ledgerPut_other _ _ _ _ (Ne.symm hnk),
        getState_ledgerPut_self]

theorem c2_ship_witness :
    getState stEx "1001" = some (.json (encodeProduct pEx)) ∧
    jsBlank "New Location" = false ∧
    jsBlank "2021-08-01T00:00:00.000Z" = false ∧
    isValidDate "2021-08-01T00:00:00.000Z" = true ∧
    envEx.fails "1001" = false ∧
    notifKey envEx ≠ "1001" ∧
    (∃ st',
      shipProductTo envEx stEx "1001" "New Location"
          "2021-08-01T00:00:00.000Z" = .ok st' ∧
      getState st' "1001" = some (.json (encodeProduct
        (shipResult pEx "New Location" "2021-08-01T00:00:00.000Z"))) ∧
      (shipResult pEx "New Location"
          "2021-08-01T00:00:00.000Z").locationData.current =
        { arrivalDate := "2021-08-01T00:00:00.000Z",
          location := "New Location" } ∧
      (shipResult pEx "New Location"
          "2021-08-01T00:00:00.000Z").locationData.previous =
        pEx.locationData.previous ++ [pEx.locationData.current] ∧
      (shipResult pEx "New Location"
          "2021-08-01T00:00:00.000Z").locationData.previous.length =
        pEx.locationData.previous.length + 1 ∧
      (shipResult pEx "New Location"
          "2021-08-01T00:00:00.000Z").locationData.previous.take
          pEx.locationData.previous.length = pEx.locationData.previous) :=
  ⟨rfl, rfl, rfl, rfl, rfl, by decide,
   c2_ship_appends_history envEx stEx "1001" "New Location"
     "2021-08-01T00:00:00.000Z" pEx rfl rfl rfl rfl rfl (by decide)⟩

/-- Claim C4, counterexample. The quality key range for product `A`
(`QUALITY_A_` to `QUALITY_A_￿`) also contains the keys of product
`A_1`, so `getQualityRecords "A"` returns a record added for the other
product; and with equal timestamps the result is not *strictly*
descending. -/
theorem c4_range_leak_cex :
    getQualityRecords
      [("QUALITY_A_100", .json (qrDoc "A" "2021-06-24T18:25:43.511Z" 90)),
       ("QUALITY_A_1_100", .json (qrDoc "A_1" "2021-06-24T18:25:43.511Z" 70))]
      "A" =
      [qrDoc "A" "2021-06-24T18:25:43.511Z" 90,
       qrDoc "A_1" "2021-06-24T18:25:43.511Z" 70] ∧
    objGet (qrDoc "A_1" "2021-06-24T18:25:43.511Z" 70) "productId" =
      some (jstr "A_1") :=
  ⟨rfl, rfl⟩

/-- Claim C4, amended. `getQualityRecords productId` returns exactly the
parseable entries stored in the key range
`[QUALITY_<id>_, QUALITY_<id>_￿)` — a range that also contains the
quality keys of any product whose id extends `<id>` (for example `A_1`
for `A`) — skipping malformed entries.  Whenever every returned
record's `timestamp` parses, the result is ordered by timestamp
nonstrictly descending (equal timestamps keep their stable key order);
a record whose timestamp does not parse makes the comparator return
`NaN` (treated as equal to every neighbour), and the resulting order
is implementation-defined rather than descending. -/
theorem c4_amended_quality_listing (st : Ledger) (productId : String)
    (hp : ∀ j ∈ (rangeScan st ("QUALITY_" ++ productId ++ "_")
        ("QUALITY_" ++ productId ++ "_￿")).filterMap
        (fun kv => parseStored kv.2),
      (dateMillisVal (objGet j "timestamp")).isSome = true) :
    List.Perm (getQualityRecords st productId)
      ((rangeScan st ("QUALITY_" ++ productId ++ "_")
        ("QUALITY_" ++ productId ++ "_￿")).filterMap
        (fun kv => parseStored kv.2)) ∧
    (getQualityRecords st productId).Pairwise
      (fun a b => ∃ ta tb,
        dateMillisVal (objGet a "timestamp") = some ta ∧
        dateMillisVal (objGet b "timestamp") = some tb ∧ tb ≤ ta) := by
  constructor
  · exact List.mergeSort_perm _ _
  · have hcong : ∀ a ∈ (rangeScan st ("QUALITY_" ++ productId ++ "_")
        ("QUALITY_" ++ productId ++ "_￿")).filterMap
        (fun kv => parseStored kv.2),
        ∀ b ∈ (rangeScan st ("QUALITY_" ++ productId ++ "_")
          ("QUALITY_" ++ productId ++ "_￿")).filterMap
          (fun kv => parseStored kv.2),
        tsLeB a b = (fun a b : Json =>
          decide ((dateMillisVal (objGet b "timestamp")).getD 0 ≤
            (dateMillisVal (objGet a "timestamp")).getD 0)) (id a) (id b) := by
      intro a ha b hb
      obtain ⟨ta, hta⟩ := Option.isSome_iff_exists.mp (hp a ha)
      obtain ⟨tb, htb⟩ := Option.isSome_iff_exists.mp (hp b hb)
      simp [tsLeB, hta, htb]
    have heq : (((rangeScan st ("QUALITY_" ++ productId ++ "_")
        ("QUALITY_" ++ productId ++ "_￿")).filterMap
        (fun kv => parseStored kv.2)).mergeSort tsLeB).map id =
        (((rangeScan st ("QUALITY_" ++ productId ++ "_")
          ("QUALITY_" ++ productId ++ "_￿")).filterMap
          (fun kv => parseStored kv.2)).map id).mergeSort
          (fun a b : Json =>
            decide ((dateMillisVal (objGet b "timestamp")).getD 0 ≤
              (dateMillisVal (objGet a "timestamp")).getD 0)) :=
      List.map_mergeSort hcong
    simp only [List.map_id] at heq
    have hsorted := @List.sorted_mergeSort _
      (fun a b : Json =>
        decide ((dateMillisVal (objGet b "timestamp")).getD 0 ≤
          (dateMillisVal (objGet a "timestamp")).getD 0))
      (fun a b c h₁ h₂ => by
        simp only [decide_eq_true_eq] at h₁ h₂ ⊢
        exact le_trans h₂ h₁)
      (fun a b => by
        simp only [Bool.or_eq_true, decide_eq_true_eq]
        exact le_total _ _)
      ((rangeScan st ("QUALITY_" ++ productId ++ "_")
        ("QUALITY_" ++ productId ++ "_￿")).filterMap
        (fun kv => parseStored kv.2))
    rw [← heq] at hsorted
    refine List.Pairwise.imp_of_mem ?_ hsorted
    intro a b ha hb hab
    obtain ⟨ta, hta⟩ := Option.isSome_iff_exists.mp
      (hp a (List.mem_mergeSort.mp ha))
    obtain ⟨tb, htb⟩ := Option.isSome_iff_exists.mp
      (hp b (List.mem_mergeSort.mp hb))
    refine ⟨ta, tb, hta, htb, ?_⟩
    simpa [hta, htb] using hab

theorem c4_amended_witness :
    (∀ j ∈ (rangeScan [("QUALITY_B_100",
        StoredVal.json (qrDoc "B" "2021-06-24T18:25:43.511Z" 90)),
       ("QUALITY_B_200",
        StoredVal.json (qrDoc "B" "2021-07-24T18:25:43.511Z" 80))]
        ("QUALITY_" ++ "B" ++ "_") ("QUALITY_" ++ "B" ++ "_￿")).filterMap
        (fun kv => parseStored kv.2),
      (dateMillisVal (objGet j "timestamp")).isSome = true) ∧
    (List.Perm (getQualityRecords
        [("QUALITY_B_100",
          StoredVal.json (qrDoc "B" "2021-06-24T18:25:43.511Z" 90)),
         ("QUALITY_B_200",
          StoredVal.json (qrDoc "B" "2021-07-24T18:25:43.511Z" 80))] "B")
      ((rangeScan [("QUALITY_B_100",
          StoredVal.json (qrDoc "B" "2021-06-24T18:25:43.511Z" 90)),
         ("QUALITY_B_200",
          StoredVal.json (qrDoc "B" "2021-07-24T18:25:43.511Z" 80))]
        ("QUALITY_" ++ "B" ++ "_") ("QUALITY_" ++ "B" ++ "_￿")).filterMap
        (fun kv => parseStored kv.2)) ∧
    (getQualityRecords
        [("QUALITY_B_100",
          StoredVal.json (qrDoc "B" "2021-06-24T18:25:43.511Z" 90)),
         ("QUALITY_B_200",
          StoredVal.json (qrDoc "B" "2021-07-24T18:25:43.511Z" 80))] "B").Pairwise
      (fun a b => ∃ ta tb,
        dateMillisVal (objGet a "timestamp") = some ta ∧
        dateMillisVal (objGet b "timestamp") = some tb ∧ tb ≤ ta)) :=
  ⟨by decide,
   c4_amended_quality_listing
     [("QUALITY_B_100",
       StoredVal.json (qrDoc "B" "2021-06-24T18:25:43.511Z" 90)),
      ("QUALITY_B_200",
       StoredVal.json (qrDoc "B" "2021-07-24T18:25:43.511Z" 80))] "B"
     (by decide)⟩

/-- On the wire form of a date-valid product, one analytics-loop
iteration succeeds and computes `anStepP`. -/
theorem anStep_encode (acc : AnAcc) (p : Product) (h : dateOkP p) :
    anStep acc (encodeProduct p) = .ok (anStepP acc p) := by
  obtain ⟨h₁, h₂⟩ := h
  obtain ⟨t₁, ht₁⟩ := Option.isSome_iff_exists.mp h₁
  rcases p with ⟨id, comps, barcode, name, origin, pd, ed, uq, uqt, bq, up,
    cat, variety, misc, ⟨⟨ca, cl⟩, prev⟩⟩
  simp only [dateOkP] at h₂
  cases prev with
  | nil =>
    cases bq <;> cases variety <;> cases misc <;>
      simp +decide [anStep, anStepP, encodeProduct, encodeLocationData,
        encodeEntry, objGet, jfind, propGetE, jsToString, dateMillisVal,
        monthKeyE, lenValE, indexVal, prodMonthKey, ht₁, Except.bind, bind,
        Except.instMonad] <;> rfl
  | cons e rest =>
    obtain ⟨t₂, ht₂⟩ := Option.isSome_iff_exists.mp (h₂ (by simp))
    cases bq <;> cases variety <;> cases misc <;>
      simp +decide [anStep, anStepP, encodeProduct, encodeLocationData,
        encodeEntry, objGet, jfind, propGetE, jsToString, dateMillisVal,
        monthKeyE, lenValE, indexVal, subNaN, addNaN, prodMonthKey,
        arrMonthKey, ht₁, ht₂, Except.bind, bind, Except.instMonad] <;> rfl

/-- The analytics loop over wire forms of date-valid products succeeds
and folds `anStepP`. -/
theorem anLoop_encode (ps : List Product) (acc : AnAcc)
    (h : ∀ p ∈ ps, dateOkP p) :
    anLoop acc (ps.map encodeProduct) = .ok (ps.foldl anStepP acc) := by
  induction ps generalizing acc with
  | nil => rfl
  | cons p ps ih =>
    have hp := h p (List.mem_cons_self p ps)
    simp only [List.map_cons, List.foldl_cons, anLoop,
      anStep_encode acc p hp, Except.bind, bind, Except.instMonad]
    exact ih (anStepP acc p) (fun q hq => h q (List.mem_cons_of_mem p hq))

theorem monthFind_bumpMonthProducts (md : List (String × Nat × Nat))
    (k m : String) :
    monthFind (bumpMonthProducts md k) m =
      if m = k then
        (match monthFind md k with
         | some (a, b) => some (a + 1, b)
         | none => some (1, 0))
      else monthFind md m := by
  induction md with
  | nil =>
    by_cases h : m = k <;> simp [bumpMonthProducts, monthFind, h]
  | cons kv rest ih =>
    obtain ⟨k', a, b⟩ := kv
    by_cases h₁ : k = k'
    · subst h₁
      by_cases h₂ : m = k <;> simp [bumpMonthProducts, monthFind, h₂]
    · by_cases h₂ : m = k'
      · subst h₂
        simp [bumpMonthProducts, h₁, monthFind, Ne.symm h₁, ih]
      · simp [bumpMonthProducts, h₁, monthFind, h₂, ih]

theorem monthFind_bumpMonthShipments (md : List (String × Nat × Nat))
    (k m : String) :
    monthFind (bumpMonthShipments md k) m =
      if m = k then
        (match monthFind md k with
         | some (a, b) => some (a, b + 1)
         | none => none)
      else monthFind md m := by
  induction md with
  | nil =>
    by_cases h : m = k <;> simp [bumpMonthShipments, monthFind, h]
  | cons kv rest ih =>
    obtain ⟨k', a, b⟩ := kv
    by_cases h₁ : k = k'
    · subst h₁
      by_cases h₂ : m = k <;> simp [bumpMonthShipments, monthFind, h₂]
    · by_cases h₂ : m = k'
      · subst h₂
        simp [bumpMonthShipments, h₁, monthFind, Ne.symm h₁, ih]
      · simp [bumpMonthShipments, h₁, monthFind, h₂, ih]

/-- One iteration, seen through a single month bucket. -/
theorem monthFind_anStepP (acc : AnAcc) (p : Product) (m : String) :
    monthFind (anStepP acc p).monthlyData m =
      bucketStep m (monthFind acc.monthlyData m) p := by
  cases hprev : p.locationData.previous with
  | nil =>
    by_cases h : prodMonthKey p = m
    · simp [anStepP, bucketStep, hprev, monthFind_bumpMonthProducts, h,
        Option.getD]
      cases monthFind acc.monthlyData m <;> simp
    · simp [anStepP, bucketStep, hprev, monthFind_bumpMonthProducts, h,
        Ne.symm h]
  | cons e rest =>
    by_cases h : prodMonthKey p = m
    · by_cases h₂ : arrMonthKey p = m
      · simp [anStepP, bucketStep, hprev, monthFind_bumpMonthProducts,
          monthFind_bumpMonthShipments, h, h₂]
        cases monthFind acc.monthlyData m <;> simp
      · simp [anStepP, bucketStep, hprev, monthFind_bumpMonthProducts,
          monthFind_bumpMonthShipments, h, h₂, Ne.symm h₂]
        cases monthFind acc.monthlyData m <;> simp
    · by_cases h₂ : arrMonthKey p = m
      · simp [anStepP, bucketStep, hprev, monthFind_bumpMonthProducts,
          monthFind_bumpMonthShipments, h, Ne.symm h, h₂]
      · simp [anStepP, bucketStep, hprev, monthFind_bumpMonthProducts,
          monthFind_bumpMonthShipments, h, Ne.symm h, h₂, Ne.symm h₂]

theorem foldl_anStepP_monthFind (ps : List Product) (acc : AnAcc)
    (m : String) :
    monthFind ((ps.foldl anStepP acc).monthlyData) m =
      ps.foldl (bucketStep m) (monthFind acc.monthlyData m) := by
  induction ps generalizing acc with
  | nil => rfl
  | cons p ps ih =>
    simp only [List.foldl_cons, ih (anStepP acc p), monthFind_anStepP]

theorem foldl_bucketStep (ps : List Product) (m : String)
    (b : Option (Nat × Nat)) :
    ps.foldl (bucketStep m) b =
      match b with
      | some (a, s) => some (a + countProductionsIn ps m,
                             s + countShipmentsFrom true ps m)
      | none =>
        if countProductionsIn ps m = 0 then none
        else some (countProductionsIn ps m, countShipmentsFrom false ps m) := by
  induction ps generalizing b with
  | nil => cases b with
    | some v => simp [countProductionsIn, countShipmentsFrom]
    | none => simp [countProductionsIn, countShipmentsFrom]
  | cons p ps ih =>
    rw [List.foldl_cons, ih]
    by_cases hp : prodMonthKey p = m
    · cases hprev : p.locationData.previous with
      | nil =>
        cases b with
        | some v =>
          simp [bucketStep, hprev, hp, countProductionsIn, List.countP_cons,
            countShipmentsFrom, Prod.ext_iff]
          omega
        | none =>
          simp [bucketStep, hprev, hp, countProductionsIn, List.countP_cons,
            countShipmentsFrom, Prod.ext_iff]
          omega
      | cons e rest =>
        by_cases ha : arrMonthKey p = m
        · cases b with
          | some v =>
            simp [bucketStep, hprev, hp, ha, countProductionsIn,
              List.countP_cons, countShipmentsFrom, Prod.ext_iff]
            omega
          | none =>
            simp [bucketStep, hprev, hp, ha, countProductionsIn,
              List.countP_cons, countShipmentsFrom, Prod.ext_iff]
            omega
        · cases b with
          | some v =>
            simp [bucketStep, hprev, hp, ha, countProductionsIn,
              List.countP_cons, countShipmentsFrom, Prod.ext_iff]
            omega
          | none =>
            simp [bucketStep, hprev, hp, ha, countProductionsIn,
              List.countP_cons, countShipmentsFrom, Prod.ext_iff]
            omega
    · have hb : (prodMonthKey p == m) = false := beq_eq_false_iff_ne.mpr hp
      cases hprev : p.locationData.previous with
      | nil =>
        cases b with
        | some v =>
          simp [bucketStep, hprev, hp, hb, countProductionsIn,
            List.countP_cons, countShipmentsFrom, Prod.ext_iff]
        | none =>
          simp [bucketStep, hprev, hp, hb, countProductionsIn,
            List.countP_cons, countShipmentsFrom]
      | cons e rest =>
        by_cases ha : arrMonthKey p = m
        · cases b with
          | some v =>
            simp [bucketStep, hprev, hp, hb, ha, countProductionsIn,
              List.countP_cons, countShipmentsFrom, Prod.ext_iff]
            omega
          | none =>
            simp [bucketStep, hprev, hp, hb, ha, countProductionsIn,
              List.countP_cons, countShipmentsFrom]
        · cases b with
          | some v =>
            simp [bucketStep, hprev, hp, hb, ha, countProductionsIn,
              List.countP_cons, countShipmentsFrom, Prod.ext_iff]
          | none =>
            simp [bucketStep, hprev, hp, hb, ha, countProductionsIn,
              List.countP_cons, countShipmentsFrom]

theorem listLtB_false_trans :
    ∀ a b c : List Char, listLtB b a = false → listLtB c b = false →
      listLtB c a = false := by
  intro a
  induction a with
  | nil =>
    intro b c h₁ h₂
    cases c <;> rfl
  | cons x xs ih =>
    intro b c h₁ h₂
    cases b with
    | nil => simp [listLtB] at h₁
    | cons y ys =>
      cases c with
      | nil => simp [listLtB] at h₂
      | cons z zs =>
        simp only [listLtB] at h₁ h₂ ⊢
        split_ifs at h₁ h₂ ⊢ <;> first
          | rfl
          | exact ih ys zs h₁ h₂
          | omega

theorem listLtB_asymm :
    ∀ a b : List Char, listLtB a b = true → listLtB b a = false := by
  intro a
  induction a with
  | nil =>
    intro b h
    cases b with
    | nil => simp [listLtB] at h
    | cons y ys => rfl
  | cons x xs ih =>
    intro b h
    cases b with
    | nil => simp [listLtB] at h
    | cons y ys =>
      simp only [listLtB] at h ⊢
      split_ifs at h ⊢ <;> first
        | rfl
        | exact ih ys h
        | omega

theorem strLeB_trans (a b c : String) (h₁ : strLeB a b = true)
    (h₂ : strLeB b c = true) : strLeB a c = true := by
  simp only [strLeB, Bool.not_eq_true'] at h₁ h₂ ⊢
  exact listLtB_false_trans _ _ _ h₁ h₂

theorem strLeB_total (a b : String) :
    (strLeB a b || strLeB b a) = true := by
  cases hab : strLtB b a with
  | false => simp [strLeB, hab]
  | true =>
    have h₂ : strLtB a b = false := listLtB_asymm _ _ hab
    simp [strLeB, h₂]

theorem prevLenE_encode (p : Product) :
    prevLenE (encodeProduct p) = .ok (some p.locationData.previous.length) := by
  rcases p with ⟨id, comps, barcode, name, origin, pd, ed, uq, uqt, bq, up,
    cat, variety, misc, ⟨⟨ca, cl⟩, prev⟩⟩
  cases bq <;> cases variety <;> cases misc <;>
    simp +decide [prevLenE, encodeProduct, encodeLocationData, encodeEntry,
      objGet, jfind, propGetE, lenValE, Except.bind, bind, Except.instMonad]

theorem mapM_prevLenE_encode (ps : List Product) :
    (ps.map encodeProduct).mapM prevLenE =
      .ok (ps.map (fun p => some p.locationData.previous.length)) := by
  induction ps with
  | nil => rfl
  | cons p ps ih =>
    rw [List.map_cons, List.mapM_cons, prevLenE_encode, ih]
    rfl

/-- Claim C5, amended. Over any scan of date-valid products: every
product adds one production count to the bucket of its production
month (buckets are created on demand), but a shipped product adds a
shipment count to the bucket of its `current.arrivalDate` month *only
when that bucket already exists at that point of the scan* — i.e. the
month is the production month of an earlier product or of the product
itself; shipments into months that are no product's production month
are silently dropped (`if (monthlyData[shipmentMonth])`, line 255).
`monthlyTrends` is the chronologically sorted bucket list truncated to
its last (most recent) 6 entries. -/
theorem c5_amended_monthly_trends (ps : List Product) (qdocs : List Json)
    (h : ∀ p ∈ ps, dateOkP p) :
    (analyticsCore (ps.map encodeProduct) qdocs).map
        AnalyticsData.monthlyTrends =
      .ok ((((monthlyDataOf ps).mergeSort (fun a b => strLeB a.1 b.1)).drop
          (((monthlyDataOf ps).mergeSort
            (fun a b => strLeB a.1 b.1)).length - 6)).map
          (fun e =>
            { month := match parseISO (e.1 ++ "-01") with
                       | some t => monthShortOfMillis t
                       | none => "Invalid Date",
              products := e.2.1, shipments := e.2.2 })) ∧
    (∀ m, monthFind (monthlyDataOf ps) m =
      (if countProductionsIn ps m = 0 then none
       else some (countProductionsIn ps m, countShipmentsFrom false ps m))) ∧
    ((monthlyDataOf ps).mergeSort (fun a b => strLeB a.1 b.1)).Pairwise
      (fun a b => strLeB a.1 b.1 = true) := by
  have hloop := anLoop_encode ps ⟨[], [], [], some 0, 0, 0⟩ h
  have hlens := mapM_prevLenE_encode ps
  refine ⟨?_, ?_, ?_⟩
  · simp only [analyticsCore, hloop, hlens, Except.bind, bind,
      Except.instMonad]
    rfl
  · intro m
    simp [monthlyDataOf, foldl_anStepP_monthFind, foldl_bucketStep, acc₀,
      monthFind]
  · exact @List.sorted_mergeSort _
      (fun a b : String × Nat × Nat => strLeB a.1 b.1)
      (fun a b c h₁ h₂ => strLeB_trans _ _ _ h₁ h₂)
      (fun a b => strLeB_total _ _)
      (monthlyDataOf ps)

theorem c5_amended_witness :
    (∀ p ∈ [pEx], dateOkP p) ∧
    ((analyticsCore ([pEx].map encodeProduct) []).map
        AnalyticsData.monthlyTrends =
      .ok ((((monthlyDataOf [pEx]).mergeSort (fun a b => strLeB a.1 b.1)).drop
          (((monthlyDataOf [pEx]).mergeSort
            (fun a b => strLeB a.1 b.1)).length - 6)).map
          (fun e =>
            { month := match parseISO (e.1 ++ "-01") with
                       | some t => monthShortOfMillis t
                       | none => "Invalid Date",
              products := e.2.1, shipments := e.2.2 })) ∧
    (∀ m, monthFind (monthlyDataOf [pEx]) m =
      (if countProductionsIn [pEx] m = 0 then none
       else some (countProductionsIn [pEx] m,
         countShipmentsFrom false [pEx] m))) ∧
    ((monthlyDataOf [pEx]).mergeSort (fun a b => strLeB a.1 b.1)).Pairwise
      (fun a b => strLeB a.1 b.1 = true)) :=
  ⟨by decide, c5_amended_monthly_trends [pEx] [] (by decide)⟩

/-- Claim C5, counterexample. A product whose production month is
2021-06 but whose (post-shipment) `current.arrivalDate` month is
2021-07 contributes *no* shipment count at all: the source only
increments `shipments` when the bucket of the shipment month already
exists as some production month (line 255), so `monthlyTrends` holds a
single June bucket with `shipments = 0` and no July bucket. -/
theorem c5_shipment_month_dropped_cex :
    (getAnalyticsData stEx).map (fun a =>
        (a.monthlyTrends.map MonthlyTrend.month,
         a.monthlyTrends.map MonthlyTrend.products,
         a.monthlyTrends.map MonthlyTrend.shipments)) =
      .ok (["Jun"], [1], [0]) ∧
    pEx.locationData.previous.length = 1 ∧
    monthKeyE (parseISO pEx.locationData.current.arrivalDate) = .ok "2021-07" ∧
    monthKeyE (parseISO pEx.productionDate) = .ok "2021-06" :=
  ⟨rfl, rfl, rfl, rfl⟩

theorem objGet_encode_id (p : Product) :
    objGet (encodeProduct p) "id" = some (jstr p.id) := rfl

theorem objGet_encode_origin (p : Product) :
    objGet (encodeProduct p) "placeOfOrigin" = some (jstr p.placeOfOrigin) := rfl

/-- The generated notification key never equals a quality-record key
(distinct literal prefixes). -/
theorem notifKey_ne_qualityKey (env : Env) (pid : String) (now : Int) :
    notifKey env ≠ qualityKey pid now := by
  intro h
  have h' := congrArg String.data h
  simp [notifKey, qualityKey, String.data_append] at h'

theorem notifId_createdNotif (env : Env) (pid : String) (n o : Option Json) :
    jsToString (objGet (createdNotif env pid n o) "id") = notifKey env := rfl

theorem notifId_shippedNotif (env : Env) (pid : String) (n : Option Json)
    (L : String) :
    jsToString (objGet (shippedNotif env pid n L) "id") = notifKey env := rfl

theorem notifId_qualityNotif (env : Env) (pid : String) (qd : Json)
    (sev : String) :
    jsToString (objGet (qualityNotif env pid qd sev) "id") = notifKey env := rfl

/-- Claim C7. A notification-write failure is caught and discarded: with
the ledger failing exactly on the generated notification key, each of
`createProduct`, `shipProductTo` and `addQualityRecord` still succeeds,
and the final ledger holds exactly the primary write (nothing is rolled
back, no error is surfaced). -/
theorem c7_notification_failure_tolerated
    (env : Env) (st : Ledger) (doc : Json) (pid : String) (p : Product)
    (pid2 L T qpid : String) (qdoc : Json)
    (hval : validateProductData doc = .ok ())
    (hid : objGet doc "id" = some (jstr pid))
    (hnew : productExists st pid = false)
    (hfc : env.fails pid = false)
    (hst2 : getState st pid2 = some (.json (encodeProduct p)))
    (hL : jsBlank L = false) (hT : jsBlank T = false)
    (hd : isValidDate T = true)
    (hfs : env.fails pid2 = false)
    (hq : productExists st qpid = true)
    (hqv : validateQualityRecord qdoc = .ok ())
    (hfq : env.fails (qualityKey qpid env.now) = false)
    (hnf : env.fails (notifKey env) = true) :
    createProduct env st doc = .ok (ledgerPut st pid (.json doc)) ∧
    shipProductTo env st pid2 L T =
      .ok (ledgerPut st pid2 (.json (encodeProduct (shipResult p L T)))) ∧
    addQualityRecord env st qpid qdoc =
      .ok (ledgerPut st (qualityKey qpid env.now) (.json qdoc)) := by
  refine ⟨?_, ?_, ?_⟩
  · simp only [createProduct, hval, hid, hnew, ledgerPutE, hfc,
      createNotification, notifId_createdNotif, hnf, Except.bind, bind,
      Except.instMonad, Bool.false_eq_true, if_false, if_true, reduceIte]
    rfl
  · simp only [shipProductTo, productExists, hst2, requireFieldStr, hL, hT,
      hd, readProduct, shipDocUpdate_encode, ledgerPutE, hfs,
      createNotification, notifId_shippedNotif, hnf, Except.bind, bind,
      Except.instMonad, Option.isSome_some, Bool.not_true,
      Bool.false_eq_true, if_false, if_true, reduceIte]
    rfl
  · simp only [addQualityRecord, hq, hqv, ledgerPutE, hfq,
      createNotification, notifId_qualityNotif, hnf, Except.bind, bind,
      Except.instMonad, Bool.false_eq_true, if_false, if_true, reduceIte]
    rfl

theorem c7_witness :
    validateProductData (encodeProduct { pEx with id := "2002" }) = .ok () ∧
    objGet (encodeProduct { pEx with id := "2002" }) "id" =
      some (jstr "2002") ∧
    productExists stEx "2002" = false ∧
    envFail.fails "2002" = false ∧
    getState stEx "1001" = some (.json (encodeProduct pEx)) ∧
    jsBlank "New Location" = false ∧
    jsBlank "2021-08-01T00:00:00.000Z" = false ∧
    isValidDate "2021-08-01T00:00:00.000Z" = true ∧
    envFail.fails "1001" = false ∧
    productExists stEx "1001" = true ∧
    validateQualityRecord (qrDoc "1001" "2021-06-24T18:25:43.511Z" 90) =
      .ok () ∧
    envFail.fails (qualityKey "1001" envFail.now) = false ∧
    envFail.fails (notifKey envFail) = true ∧
    (createProduct envFail stEx (encodeProduct { pEx with id := "2002" }) =
      .ok (ledgerPut stEx "2002"
        (.json (encodeProduct { pEx with id := "2002" }))) ∧
    shipProductTo envFail stEx "1001" "New Location"
        "2021-08-01T00:00:00.000Z" =
      .ok (ledgerPut stEx "1001" (.json (encodeProduct
        (shipResult pEx "New Location" "2021-08-01T00:00:00.000Z")))) ∧
    addQualityRecord envFail stEx "1001"
        (qrDoc "1001" "2021-06-24T18:25:43.511Z" 90) =
      .ok (ledgerPut stEx (qualityKey "1001" envFail.now)
        (.json (qrDoc "1001" "2021-06-24T18:25:43.511Z" 90)))) :=
  ⟨rfl, rfl, rfl, rfl, rfl, rfl, rfl, rfl, rfl, rfl, rfl, rfl, rfl,
   c7_notification_failure_tolerated envFail stEx
     (encodeProduct { pEx with id := "2002" }) "2002" pEx "1001"
     "New Location" "2021-08-01T00:00:00.000Z" "1001"
     (qrDoc "1001" "2021-06-24T18:25:43.511Z" 90)
     rfl rfl rfl rfl rfl rfl rfl rfl rfl rfl rfl rfl rfl⟩

/-- Claim C8. For a payload that passes validation and whose id is not
yet present (with writes succeeding and no key collision with the
generated notification id), `createProduct` then `getProduct` returns
the stored document unchanged, and its typed decoding is exactly the
original product — no field loss and no numeric coercion (numbers are
modelled as exact rationals). -/
theorem c8_create_read_roundtrip (env : Env) (st : Ledger) (p : Product)
    (hval : validateProductData (encodeProduct p) = .ok ())
    (hnew : productExists st p.id = false)
    (hfail : env.fails p.id = false)
    (hnk : notifKey env ≠ p.id) :
    ∃ st',
      createProduct env st (encodeProduct p) = .ok st' ∧
      getProduct st' p.id = .ok (encodeProduct p) ∧
      decodeProduct (encodeProduct p) = some p := by
  refine ⟨createNotification env
      (ledgerPut st p.id (.json (encodeProduct p)))
      (createdNotif env p.id (some (jstr p.name)) (some (jstr p.placeOfOrigin))),
    ?_, ?_, decode_encodeProduct p⟩
  · simp [createProduct, hval, objGet_encode_id, objGet_encode_name,
      objGet_encode_origin, hnew, ledgerPutE, hfail, Except.bind, bind,
      Except.instMonad]
    rfl
  · have hget : getState (createNotification env
        (ledgerPut st p.id (.json (encodeProduct p)))
        (createdNotif env p.id (some (jstr p.name))
          (some (jstr p.placeOfOrigin)))) p.id =
        some (.json (encodeProduct p)) := by
      rw [createNotification]
      by_cases hf : env.fails (notifKey env) = true
      · simp [ledgerPutE, createdNotif, objGet, jfind, jsToString, hf,
          getState_ledgerPut_self]
      · simp only [Bool.not_eq_true] at hf
        simp [ledgerPutE, createdNotif, objGet, jfind, jsToString, hf,
          getState_ledgerPut_other _ _ _ _ (Ne.symm hnk),
          getState_ledgerPut_self]
    simp [getProduct, productExists, readProduct, hget, Except.bind, bind,
      Except.instMonad]
    rfl

theorem c8_witness :
    validateProductData (encodeProduct pEx) = .ok () ∧
    productExists [] pEx.id = false ∧
    envEx.fails pEx.id = false ∧
    notifKey envEx ≠ pEx.id ∧
    (∃ st',
      createProduct envEx [] (encodeProduct pEx) = .ok st' ∧
      getProduct st' pEx.id = .ok (encodeProduct pEx) ∧
      decodeProduct (encodeProduct pEx) = some pEx) :=
  ⟨rfl, rfl, rfl, by decide,
   c8_create_read_roundtrip envEx [] pEx rfl rfl rfl (by decide)⟩

theorem requireFieldV_num (q : Rat) (f : String) :
    requireFieldV (some (jnum q)) f = .ok () := rfl

theorem requireFieldV_str_ok (s f : String) (h : jsBlank s = false) :
    requireFieldV (some (jstr s)) f = .ok () := by
  simp [requireFieldV, h]

theorem isValidDateV_str_ok (s msg : String) (h : isValidDate s = true) :
    isValidDateV (some (jstr s)) msg = .ok () := by
  simp [isValidDateV, h]

/-- Claim C10. With the other required fields present and valid,
`addQualityRecord` rejects any score outside `[0, 100]` with the
validation error, and accepts the boundary scores `0` and `100`
(storing the record under the product's quality key). -/
theorem c10_score_bounds (env : Env) (st : Ledger) (pid : String)
    (qdoc : Json) (q : Rat) (ts : String)
    (hex : productExists st pid = true)
    (h₁ : requireFieldV (objGet qdoc "inspector") "inspector" = .ok ())
    (h₂ : requireFieldV (objGet qdoc "notes") "notes" = .ok ())
    (hts : objGet qdoc "timestamp" = some (jstr ts))
    (htsb : jsBlank ts = false)
    (htsv : isValidDate ts = true)
    (hscore : objGet qdoc "score" = some (jnum q))
    (hfq : env.fails (qualityKey pid env.now) = false) :
    ((q < 0 ∨ 100 < q) →
      addQualityRecord env st pid qdoc =
        .error (.err "Quality score must be between 0 and 100.")) ∧
    ((q = 0 ∨ q = 100) →
      ∃ st',
        addQualityRecord env st pid qdoc = .ok st' ∧
        getState st' (qualityKey pid env.now) = some (.json qdoc)) := by
  constructor
  · intro hout
    have hb : (decide (q < 0) || decide (100 < q)) = true := by
      rcases hout with h | h <;> simp [h]
    simp only [addQualityRecord, hex, validateQualityRecord, hscore, hts,
      h₁, h₂, requireFieldV_num, requireFieldV_str_ok _ _ htsb, toNumVal,
      hb, Except.bind, bind, Except.instMonad, Bool.not_true,
      Bool.false_eq_true, if_false, if_true, reduceIte]
    rfl
  · intro hin
    have hb : (decide (q < 0) || decide (100 < q)) = false := by
      rcases hin with h | h <;> simp [h]
    refine ⟨createNotification env
        (ledgerPut st (qualityKey pid env.now) (.json qdoc))
        (qualityNotif env pid qdoc
          (if 80 ≤ q then "info" else if 60 ≤ q then "warning" else "error")),
      ?_, ?_⟩
    · simp only [addQualityRecord, hex, validateQualityRecord, hscore, hts,
        h₁, h₂, requireFieldV_num, requireFieldV_str_ok _ _ htsb,
        isValidDateV_str_ok _ _ htsv, toNumVal, hb, ledgerPutE, hfq,
        Except.bind, bind, Except.instMonad, Bool.not_true,
        Bool.false_eq_true, if_false, if_true, reduceIte]
      rfl
    · rw [createNotification]
      by_cases hf : env.fails (notifKey env) = true
      · simp [ledgerPutE, qualityNotif, objGet, jfind, jsToString, hf,
          getState_ledgerPut_self]
      · simp only [Bool.not_eq_true] at hf
        simp [ledgerPutE, qualityNotif, objGet, jfind, jsToString, hf,
          getState_ledgerPut_other _ _ _ _
            (Ne.symm (notifKey_ne_qualityKey env pid env.now)),
          getState_ledgerPut_self]

theorem c10_witness :
    productExists stEx "1001" = true ∧
    requireFieldV (objGet (qrDoc "1001" "2021-06-24T18:25:43.511Z" 101)
      "inspector") "inspector" = .ok () ∧
    requireFieldV (objGet (qrDoc "1001" "2021-06-24T18:25:43.511Z" 101)
      "notes") "notes" = .ok () ∧
    objGet (qrDoc "1001" "2021-06-24T18:25:43.511Z" 101) "timestamp" =
      some (jstr "2021-06-24T18:25:43.511Z") ∧
    jsBlank "2021-06-24T18:25:43.511Z" = false ∧
    isValidDate "2021-06-24T18:25:43.511Z" = true ∧
    objGet (qrDoc "1001" "2021-06-24T18:25:43.511Z" 101) "score" =
      some (jnum 101) ∧
    envEx.fails (qualityKey "1001" envEx.now) = false ∧
    ((101 : Rat) < 0 ∨ (100 : Rat) < 101) ∧
    addQualityRecord envEx stEx "1001"
        (qrDoc "1001" "2021-06-24T18:25:43.511Z" 101) =
      .error (.err "Quality score must be between 0 and 100.") ∧
    objGet (qrDoc "1001" "2021-06-24T18:25:43.511Z" 0) "score" =
      some (jnum 0) ∧
    ((0 : Rat) = 0 ∨ (0 : Rat) = 100) ∧
    (∃ st',
      addQualityRecord envEx stEx "1001"
          (qrDoc "1001" "2021-06-24T18:25:43.511Z" 0) = .ok st' ∧
      getState st' (qualityKey "1001" envEx.now) =
        some (.json (qrDoc "1001" "2021-06-24T18:25:43.511Z" 0))) :=
  ⟨rfl, rfl, rfl, rfl, rfl, rfl, rfl, rfl, Or.inr (by decide),
   (c10_score_bounds envEx stEx "1001"
      (qrDoc "1001" "2021-06-24T18:25:43.511Z" 101) 101
      "2021-06-24T18:25:43.511Z" rfl rfl rfl rfl rfl rfl rfl rfl).1
     (Or.inr (by decide)),
   rfl, Or.inl rfl,
   (c10_score_bounds envEx stEx "1001"
      (qrDoc "1001" "2021-06-24T18:25:43.511Z" 0) 0
      "2021-06-24T18:25:43.511Z" rfl rfl rfl rfl rfl rfl rfl rfl).2
     (Or.inl rfl)⟩

theorem mem_ledgerPut (st : Ledger) (k' : String) (v' : StoredVal)
    (k : String) (v : StoredVal) (h : (k, v) ∈ ledgerPut st k' v') :
    (k = k' ∧ v = v') ∨ (k, v) ∈ st := by
  induction st with
  | nil =>
    simp [ledgerPut] at h
    exact Or.inl ⟨h.1, h.2⟩
  | cons kv rest ih =>
    obtain ⟨k₀, v₀⟩ := kv
    by_cases h₁ : strLtB k' k₀ = true
    · simp only [ledgerPut, h₁, if_true] at h
      rcases List.mem_cons.mp h with he | hm
      · cases he
        exact Or.inl ⟨rfl, rfl⟩
      · exact Or.inr hm
    · by_cases h₂ : k' = k₀
      · simp only [ledgerPut, h₂, strLtB_irrefl, Bool.false_eq_true,
          if_false, if_true] at h
        rcases List.mem_cons.mp h with he | hm
        · cases he
          exact Or.inl ⟨h₂.symm, rfl⟩
        · exact Or.inr (List.mem_cons_of_mem _ hm)
      · simp only [ledgerPut, h₁, h₂, Bool.false_eq_true, if_false] at h
        rcases List.mem_cons.mp h with he | hm
        · refine Or.inr ?_
          rw [he]
          exact List.mem_cons_self _ _
        · rcases ih hm with hl | hr
          · exact Or.inl hl
          · exact Or.inr (List.mem_cons_of_mem _ hr)

theorem mem_queryAllProducts_of_getState (st : Ledger) (k : String) (d : Json)
    (h : getState st k = some (.json d))
    (hid : (objGet d "id").isSome = true) : d ∈ queryAllProducts st := by
  have hm := getState_mem st k _ h
  refine List.mem_filterMap.mpr ⟨(k, .json d), hm, ?_⟩
  simp [parseStored, hid]

theorem mem_queryAllProducts_elim (st : Ledger) (d : Json)
    (h : d ∈ queryAllProducts st) :
    ∃ k, (k, StoredVal.json d) ∈ st ∧ (objGet d "id").isSome = true := by
  obtain ⟨⟨k, v⟩, hm, hf⟩ := List.mem_filterMap.mp h
  cases v with
  | json j =>
    simp only [parseStored] at hf
    by_cases hid : (objGet j "id").isSome = true
    · simp [hid] at hf
      exact ⟨k, hf ▸ hm, hf ▸ hid⟩
    · simp [Bool.not_eq_true] at hid
      simp [hid] at hf
  | malformed raw => simp [parseStored] at hf

/-- A document without a `locationData` member makes the analytics
loop iteration throw (`product.locationData.current.location`,
line 234). -/
theorem anStep_noLocationData (acc : AnAcc) (doc : Json)
    (h : objGet doc "locationData" = none) :
    anStep acc doc = .error .typeError := by
  simp [anStep, h, propGetE, Except.bind, bind, Except.instMonad]

/-- If every document either always steps or always throws, and some
document in the list always throws, the loop throws. -/
theorem anLoop_error_of_mem (ds : List Json) (acc : AnAcc)
    (hall : ∀ d ∈ ds, (∀ a, ∃ a', anStep a d = .ok a') ∨
      (∀ a, anStep a d = .error .typeError))
    (hbad : ∃ d ∈ ds, ∀ a, anStep a d = .error .typeError) :
    anLoop acc ds = .error .typeError := by
  induction ds generalizing acc with
  | nil => simp at hbad
  | cons d ds ih =>
    rcases hall d (List.mem_cons_self d ds) with hok | herr
    · obtain ⟨a', ha⟩ := hok acc
      have : anLoop acc (d :: ds) = anLoop a' ds := by
        simp [anLoop, ha, Except.bind, bind, Except.instMonad]
      rw [this]
      obtain ⟨b, hb, hbstep⟩ := hbad
      rcases List.mem_cons.mp hb with he | hm
      · exact absurd (he ▸ ha) (by simp [hbstep acc])
      · exact ih a' (fun q hq => hall q (List.mem_cons_of_mem d hq))
          ⟨b, hm, hbstep⟩
    · simp [anLoop, herr acc, Except.bind, bind, Except.instMonad]

theorem objGet_createdNotif_id (env : Env) (pid : String)
    (n o : Option Json) :
    objGet (createdNotif env pid n o) "id" = some (jstr (notifKey env)) := by
  cases o <;> rfl

theorem objGet_createdNotif_noLocationData (env : Env) (pid : String)
    (n : Option Json) (o : Json) :
    objGet (createdNotif env pid n (some o)) "locationData" = none := rfl

/-- Claim C6, amended. After a successful `createProduct` whose
notification write also succeeded, the notification document lives in
the same keyspace as the products and — since `queryAllProducts`
selects every stored document with an `id` member — is returned by
`queryAllProducts` as though it were a product.  But `getAnalyticsData`
does not count it in `totalProducts`: over a ledger of otherwise
well-formed product documents it fails with a `TypeError` when its scan
reaches the notification document (which has no `locationData`). -/
theorem c6_amended_notification_visibility (env : Env) (st : Ledger)
    (p : Product)
    (hdocs : ∀ d ∈ queryAllProducts st,
      ∃ q : Product, d = encodeProduct q ∧ dateOkP q)
    (hp : dateOkP p)
    (hval : validateProductData (encodeProduct p) = .ok ())
    (hnew : productExists st p.id = false)
    (hfp : env.fails p.id = false)
    (hfn : env.fails (notifKey env) = false) :
    ∃ st',
      createProduct env st (encodeProduct p) = .ok st' ∧
      getState st' (notifKey env) = some (.json (createdNotif env p.id
        (some (jstr p.name)) (some (jstr p.placeOfOrigin)))) ∧
      createdNotif env p.id (some (jstr p.name))
        (some (jstr p.placeOfOrigin)) ∈ queryAllProducts st' ∧
      getAnalyticsData st' = .error .typeError := by
  refine ⟨ledgerPut (ledgerPut st p.id (.json (encodeProduct p)))
      (notifKey env)
      (.json (createdNotif env p.id (some (jstr p.name))
        (some (jstr p.placeOfOrigin)))), ?_, ?_, ?_, ?_⟩
  · simp only [createProduct, hval, objGet_encode_id, objGet_encode_name,
      objGet_encode_origin, hnew, ledgerPutE, hfp, createNotification,
      notifId_createdNotif, hfn, Except.bind, bind, Except.instMonad,
      Bool.false_eq_true, if_false, if_true, reduceIte]
    rfl
  · exact getState_ledgerPut_self _ _ _
  · exact mem_queryAllProducts_of_getState _ (notifKey env) _
      (getState_ledgerPut_self _ _ _)
      (by simp [objGet_createdNotif_id])
  · have herr : anLoop ⟨[], [], [], some 0, 0, 0⟩
        (queryAllProducts (ledgerPut (ledgerPut st p.id
          (.json (encodeProduct p))) (notifKey env)
          (.json (createdNotif env p.id (some (jstr p.name))
            (some (jstr p.placeOfOrigin)))))) = .error .typeError := by
      apply anLoop_error_of_mem
      · intro d hd
        obtain ⟨k, hk, hid⟩ := mem_queryAllProducts_elim _ _ hd
        rcases mem_ledgerPut _ _ _ _ _ hk with ⟨hke, hve⟩ | hk₁
        · right
          intro a
          have hdn : d = createdNotif env p.id (some (jstr p.name))
              (some (jstr p.placeOfOrigin)) := by
            injection hve
          exact hdn ▸ anStep_noLocationData a _
            (objGet_createdNotif_noLocationData env p.id _ _)
        · rcases mem_ledgerPut _ _ _ _ _ hk₁ with ⟨hke, hve⟩ | hk₂
          · left
            intro a
            have hdp : d = encodeProduct p := by injection hve
            exact ⟨_, hdp ▸ anStep_encode a p hp⟩
          · have hdq : d ∈ queryAllProducts st :=
              List.mem_filterMap.mpr ⟨(k, .json d), hk₂,
                by simp [parseStored, hid]⟩
            obtain ⟨q, hq, hqok⟩ := hdocs d hdq
            left
            intro a
            exact ⟨_, hq ▸ anStep_encode a q hqok⟩
      · refine ⟨createdNotif env p.id (some (jstr p.name))
          (some (jstr p.placeOfOrigin)), ?_, ?_⟩
        · exact mem_queryAllProducts_of_getState _ (notifKey env) _
            (getState_ledgerPut_self _ _ _) (by simp [objGet_createdNotif_id])
        · intro a
          exact anStep_noLocationData a _
            (objGet_createdNotif_noLocationData env p.id _ _)
    simp [getAnalyticsData, analyticsCore, herr, Except.bind, bind,
      Except.instMonad]

theorem c6_amended_witness :
    (∀ d ∈ queryAllProducts ([] : Ledger),
      ∃ q : Product, d = encodeProduct q ∧ dateOkP q) ∧
    dateOkP pEx ∧
    validateProductData (encodeProduct pEx) = .ok () ∧
    productExists [] pEx.id = false ∧
    envEx.fails pEx.id = false ∧
    envEx.fails (notifKey envEx) = false ∧
    (∃ st',
      createProduct envEx [] (encodeProduct pEx) = .ok st' ∧
      getState st' (notifKey envEx) = some (.json (createdNotif envEx pEx.id
        (some (jstr pEx.name)) (some (jstr pEx.placeOfOrigin)))) ∧
      createdNotif envEx pEx.id (some (jstr pEx.name))
        (some (jstr pEx.placeOfOrigin)) ∈ queryAllProducts st' ∧
      getAnalyticsData st' = .error .typeError) :=
  ⟨by simp [queryAllProducts], by decide, rfl, rfl, rfl, rfl,
   c6_amended_notification_visibility envEx [] pEx
     (by simp [queryAllProducts]) (by decide) rfl rfl rfl rfl⟩

/-- Claim C6, counterexample. After a successful `createProduct` whose
notification write succeeded, the notification document is returned by
`queryAllProducts` (two documents for one product), but
`getAnalyticsData` does not count it in `totalProducts` — it throws a
`TypeError` at `product.locationData.current.location` (line 234)
because the notification has no `locationData`. -/
theorem c6_analytics_error_cex :
    (createProduct envEx [] (encodeProduct pEx)).map
        (fun st => (queryAllProducts st).length) = .ok 2 ∧
    (createProduct envEx [] (encodeProduct pEx)).map getAnalyticsData =
      .ok (.error .typeError) :=
  ⟨rfl, rfl⟩

end SupplyChain
